import Mathlib

/-!
# The hybrid storage manager of the GIS application (`src/js/storage.js`)

A shallow embedding of the class `StorageManager`: the local record set and the
pending-operation queue kept in `localStorage`, the in-memory queue and the
`isBackendAvailable` flag, and the remote calls made through `fetch`.

Modelling decisions, each local to one definition below:

* JavaScript values are the tree `JsVal`; a finite number is read as the rational
  it denotes (the code only copies and compares numbers).
* A record, and the `locationData` argument of the operations, is an object with
  the keys of the data model; a key is absent (`none`) or holds any value.
* `localStorage` holds decoded JSON; a write stores the JSON image of the value
  (`JSON.parse (JSON.stringify v)`), and writes do not fail.
* The environment (`Env`) answers what the code cannot decide alone: the host
  name, the answer of the backend to each request, the clock and the id source.
  The state logs every request, and counts the clock readings and ids drawn.
* An `async` method runs from call to return with no other method interleaved.
* Of `src/js/location.js` the file embeds `getFormData`, the local path of
  `exportLocations` and the loop of `importLocations`, with a storage manager
  present; the DOM, the map and the toasts are left out.
-/

namespace Gis

/-! ## JavaScript values -/

/-- A JavaScript number. A finite double is the rational number it denotes. -/
inductive JsNum where
  | nan
  | posInf
  | negInf
  | fin (q : ℚ)

/-- The value of `isNaN x` for a number `x`. -/
def JsNum.isNaN : JsNum → Bool
  | .nan => true
  | _ => false

/-- The value of `x < c` for a number `x` and a finite constant `c`. -/
def JsNum.ltConst : JsNum → ℚ → Bool
  | .nan, _ => false
  | .posInf, _ => false
  | .negInf, _ => true
  | .fin q, c => decide (q < c)

/-- The value of `x > c` for a number `x` and a finite constant `c`. -/
def JsNum.gtConst : JsNum → ℚ → Bool
  | .nan, _ => false
  | .posInf, _ => true
  | .negInf, _ => false
  | .fin q, c => decide (c < q)

/-- A JavaScript value. An object is the list of its own properties. -/
inductive JsVal where
  | undefined
  | null
  | bool (b : Bool)
  | num (x : JsNum)
  | str (s : String)
  | arr (xs : List JsVal)
  | obj (props : List (String × JsVal))

/-- Truthiness, as tested by `!v`, `if (v)` and `v || w`. -/
def JsVal.truthy : JsVal → Bool
  | .undefined => false
  | .null => false
  | .bool b => b
  | .num .nan => false
  | .num (.fin q) => decide (q ≠ 0)
  | .num _ => true
  | .str s => decide (s ≠ "")
  | .arr _ => true
  | .obj _ => true

/-- Property read `v.key` on a value that is neither `undefined` nor `null`
(every read in the source is guarded by a truthiness test of `v`). Only an
object has own properties with the names read by the code. -/
def JsVal.getProp : JsVal → String → JsVal
  | .obj props, key => (props.lookup key).getD .undefined
  | _, _ => .undefined

/-- The value of `Array.isArray(v)`. -/
def JsVal.isArray : JsVal → Bool
  | .arr _ => true
  | _ => false

/-- The n-th value produced by iterating a list, `undefined` past its end. -/
def nthOrUndefined (xs : List JsVal) (n : Nat) : JsVal :=
  (xs.get? n).getD .undefined

/-- Array destructuring `const [a, b] = v` of a truthy value: an array gives its
first two elements, a string its first two characters (`undefined` where there is
none); `none` is the `TypeError` raised for a value that is not iterable. -/
def JsVal.destructure2 : JsVal → Option (JsVal × JsVal)
  | .arr xs => some (nthOrUndefined xs 0, nthOrUndefined xs 1)
  | .str s =>
      let cs := s.toList.map fun c => JsVal.str c.toString
      some (nthOrUndefined cs 0, nthOrUndefined cs 1)
  | _ => none

/-- Strict equality `a === b` where `a` was read from decoded JSON: primitives are
compared by value (`NaN` equals nothing), and an array or object read from storage
is identical to no other value. -/
def JsVal.strictEq : JsVal → JsVal → Bool
  | .undefined, .undefined => true
  | .null, .null => true
  | .bool a, .bool b => a == b
  | .num (.fin p), .num (.fin q) => decide (p = q)
  | .num .posInf, .num .posInf => true
  | .num .negInf, .num .negInf => true
  | .str a, .str b => a == b
  | _, _ => false

mutual
/-- The value `JSON.parse (JSON.stringify v)` for a value that is not `undefined`:
a number that is not finite becomes `null`, an `undefined` array element becomes
`null`, and a property holding `undefined` is left out. -/
def JsVal.json : JsVal → JsVal
  | .num (.fin q) => .num (.fin q)
  | .num _ => .null
  | .arr xs => .arr (jsonElements xs)
  | .obj props => .obj (jsonProperties props)
  | v => v
/-- The JSON image of the elements of an array. -/
def jsonElements : List JsVal → List JsVal
  | [] => []
  | x :: xs =>
      (match x with
        | .undefined => JsVal.null
        | y => y.json) :: jsonElements xs
/-- The JSON image of the properties of an object. -/
def jsonProperties : List (String × JsVal) → List (String × JsVal)
  | [] => []
  | (key, v) :: props =>
      match v with
      | .undefined => jsonProperties props
      | w => (key, w.json) :: jsonProperties props
end

/-! ## Records -/

/-- An object with the keys of a location record: the `locationData` argument of
the operations, a stored record, and the `data` of a pending operation. A key is
absent (`none`) or present with any value. Other keys are carried along unchanged
by the code and are left out. -/
structure LocationData where
  id : Option JsVal := none
  name : Option JsVal := none
  category : Option JsVal := none
  description : Option JsVal := none
  address : Option JsVal := none
  coordinates : Option JsVal := none
  created_at : Option JsVal := none
  updated_at : Option JsVal := none
  source : Option JsVal := none

/-- Property read `object.key`: `undefined` when the key is absent. -/
def prop (field : Option JsVal) : JsVal :=
  field.getD .undefined

/-- One key of an object spread: the later object wins where it has the key. -/
def override (earlier later : Option JsVal) : Option JsVal :=
  match later with
  | some v => some v
  | none => earlier

/-- The object spread `{ ...a, ...b }`. -/
def LocationData.spread (a b : LocationData) : LocationData where
  id := override a.id b.id
  name := override a.name b.name
  category := override a.category b.category
  description := override a.description b.description
  address := override a.address b.address
  coordinates := override a.coordinates b.coordinates
  created_at := override a.created_at b.created_at
  updated_at := override a.updated_at b.updated_at
  source := override a.source b.source

/-- One key through `JSON.stringify` and `JSON.parse`: a key holding `undefined`
is left out. -/
def jsonField : Option JsVal → Option JsVal
  | none => none
  | some .undefined => none
  | some v => some v.json

/-- A record through `JSON.stringify` and `JSON.parse`. -/
def LocationData.json (r : LocationData) : LocationData where
  id := jsonField r.id
  name := jsonField r.name
  category := jsonField r.category
  description := jsonField r.description
  address := jsonField r.address
  coordinates := jsonField r.coordinates
  created_at := jsonField r.created_at
  updated_at := jsonField r.updated_at
  source := jsonField r.source

/-- The GeoJSON point literal `{ type: 'Point', coordinates: [lng, lat] }`. -/
def point (lng lat : JsVal) : JsVal :=
  .obj [("type", .str "Point"), ("coordinates", .arr [lng, lat])]

/-- The literal `{ type: 'Point', coordinates: [106.819561, -6.218561] }`
(storage.js lines 91-94, 100-103 and 113-116). -/
def fallbackPoint : JsVal :=
  point (.num (.fin (106819561 / 1000000))) (.num (.fin (-6218561 / 1000000)))

/-- The test of storage.js lines 108-111 and 198-201:
`typeof lng !== 'number' || typeof lat !== 'number' || isNaN(lng) || isNaN(lat) ||
lng < -180 || lng > 180 || lat < -90 || lat > 90`. -/
def invalidCoordinateValues (lng lat : JsVal) : Bool :=
  match lng, lat with
  | .num x, .num y =>
      x.isNaN || y.isNaN || x.ltConst (-180) || x.gtConst 180 || y.ltConst (-90) || y.gtConst 90
  | _, _ => true

/-- The test `!Array.isArray(coords) || coords.length !== 2`
(storage.js lines 98 and 191). -/
def invalidCoordinateFormat : JsVal → Bool
  | .arr xs => xs.length != 2
  | _ => true

/-! ## Pending operations, requests and responses -/

/-- The `type` of a pending operation. -/
inductive OpType where
  | create
  | update
  | delete
  deriving DecidableEq

/-- A pending operation `{ type, data, timestamp }`. -/
structure PendingOp where
  type : OpType
  data : LocationData
  timestamp : String

/-- A pending operation through `JSON.stringify` and `JSON.parse`. -/
def PendingOp.json (op : PendingOp) : PendingOp :=
  { op with data := op.data.json }

/-- The HTTP method of a request. -/
inductive Method where
  | GET
  | POST
  | PUT
  | DELETE
  deriving DecidableEq

/-- The URL of a request: `/health` on the base, `/locations`, or
`/locations/` followed by an id. -/
inductive Endpoint where
  | health
  | locations
  | location (id : JsVal)

/-- A call of `fetch`: method, URL, and the object given to `JSON.stringify` as
the body, if any. -/
structure Request where
  method : Method
  endpoint : Endpoint
  body : Option LocationData := none

/-- The `data` member of a response body. -/
inductive ApiData where
  | absent
  | record (r : LocationData)
  | records (rs : List LocationData)

/-- The value of `result.data.id`; `none` is the `TypeError` raised when `data`
is absent. An array has no `id`. -/
def ApiData.id : ApiData → Option JsVal
  | .absent => none
  | .record r => some (prop r.id)
  | .records _ => some .undefined

/-- A decoded response body `{ success, data }`; `success` is the truthiness of
the member. -/
structure ApiResult where
  success : Bool
  data : ApiData

/-- The outcome of `await fetch(...)`: the promise rejects (network error), or
a response arrives with its `ok` flag, the value of `response.json()` (`none`
when decoding the body or reading a member of the result throws), and the value
of `response.text()`. -/
inductive Response where
  | rejected
  | answered (ok : Bool) (json : Option ApiResult) (text : String)

/-- Everything outside the store: the host name of the page, the answer of the
backend to a request given the requests made before it, the successive readings
of `new Date().toISOString()`, and the successive values of `generateId()`. -/
structure Env where
  hostname : String
  backend : List Request → Request → Response
  clock : Nat → String
  ids : Nat → String

/-- The browser storage: the decoded values under the keys `gis_apps_locations`
and `gis_apps_pending_sync`, `none` for a key that is absent. -/
structure LocalStorage where
  locations : Option (List LocationData) := none
  pendingSync : Option (List PendingOp) := none

/-- The state of a `StorageManager`, with the log of the requests made so far
and the number of clock readings and of ids drawn. -/
structure StorageManager where
  isBackendAvailable : Bool
  pendingSync : List PendingOp
  localStorage : LocalStorage
  requests : List Request := []
  clockReads : Nat := 0
  idsDrawn : Nat := 0

/-- Either the value returned by a call, or `threw` when the call ends with an
uncaught exception (the promise of an `async` method rejects). -/
inductive Outcome (α : Type) where
  | returned (value : α)
  | threw

/-- The result object `{ success, data, synced, error }` of an operation; a
member the source does not set is `none`. -/
structure OpResult where
  success : Bool
  data : Option LocationData := none
  synced : Option Bool := none
  error : Option String := none

/-! ## Helper methods of the store -/

/-- The value of `array.findIndex(p)`; `none` stands for `-1`. -/
def findIndex {α : Type} (p : α → Bool) : List α → Option Nat
  | [] => none
  | x :: xs => if p x then some 0 else (findIndex p xs).map (· + 1)

/-- The value of `text.includes(part)`. -/
def includes (text part : String) : Bool :=
  decide (part.toList <:+: text.toList)

/-- The value of `v || ''`. -/
def orEmpty (v : JsVal) : JsVal :=
  if v.truthy then v else .str ""

/-- The method `getLocalLocations` (storage.js lines 433-441): the decoded value
of the key, and the empty list when the key is absent. -/
def getLocalLocations (s : StorageManager) : List LocationData :=
  s.localStorage.locations.getD []

/-- The method `setLocalLocations` (storage.js lines 443-449): the key receives
`JSON.stringify(locations)`. -/
def setLocalLocations (s : StorageManager) (locations : List LocationData) : StorageManager :=
  { s with localStorage := { s.localStorage with locations := some (locations.map LocationData.json) } }

/-- The method `updateLocalLocation` (storage.js lines 451-458): the first stored
record whose id is strictly equal to the id of `updatedLocation` is replaced by
it; without such a record nothing is written. -/
def updateLocalLocation (s : StorageManager) (updatedLocation : LocationData) : StorageManager :=
  let locations := getLocalLocations s
  match findIndex (fun loc => (prop loc.id).strictEq (prop updatedLocation.id)) locations with
  | some index => setLocalLocations s (locations.set index updatedLocation)
  | none => s

/-- The method `savePendingSync` (storage.js lines 469-475). -/
def savePendingSync (s : StorageManager) : StorageManager :=
  { s with localStorage := { s.localStorage with pendingSync := some (s.pendingSync.map PendingOp.json) } }

/-- The method `loadPendingSync` (storage.js lines 477-485). -/
def loadPendingSync (s : StorageManager) : List PendingOp :=
  s.localStorage.pendingSync.getD []

/-- The method `addToPendingSync` (storage.js lines 460-467): one operation,
stamped with a reading of the clock, is pushed and the queue is saved. -/
def addToPendingSync (env : Env) (s : StorageManager) (type : OpType) (data : LocationData) :
    StorageManager :=
  let timestamp := env.clock s.clockReads
  savePendingSync
    { s with
      clockReads := s.clockReads + 1
      pendingSync := s.pendingSync ++ [{ type := type, data := data, timestamp := timestamp }] }

/-- A call `await fetch(...)`: the request is logged and the backend answers it
knowing the requests made before. -/
def fetch (env : Env) (s : StorageManager) (request : Request) : StorageManager × Response :=
  ({ s with requests := s.requests ++ [request] }, env.backend s.requests request)

/-- The method `clearLocalData` (storage.js lines 501-505). -/
def clearLocalData (s : StorageManager) : StorageManager :=
  { s with localStorage := { locations := none, pendingSync := none }, pendingSync := [] }

/-- The method `checkBackendConnection` (storage.js lines 32-52). -/
def checkBackendConnection (env : Env) (s : StorageManager) : StorageManager × Bool :=
  if env.hostname != "localhost" then
    ({ s with isBackendAvailable := false }, false)
  else
    let sent := fetch env s { method := .GET, endpoint := .health }
    match sent.2 with
    | .answered ok _ _ => ({ sent.1 with isBackendAvailable := ok }, ok)
    | .rejected => ({ sent.1 with isBackendAvailable := false }, false)

/-! ## getLocations -/

/-- The method `getLocations` (storage.js lines 55-76). The answer to the list
request carries an array of records as `data`, or no `data`; a `data` that is a
single record is not an answer of the list endpoint and has no store state in
this model, where it is read like an absent `data`. -/
def getLocations (env : Env) (s : StorageManager) : StorageManager × List LocationData :=
  let localLocations := getLocalLocations s
  if s.isBackendAvailable then
    let sent := fetch env s { method := .GET, endpoint := .locations }
    match sent.2 with
    | .rejected => ({ sent.1 with isBackendAvailable := false }, localLocations)
    | .answered false _ _ => (sent.1, localLocations)
    | .answered true none _ => ({ sent.1 with isBackendAvailable := false }, localLocations)
    | .answered true (some backendData) _ =>
        if backendData.success then
          match backendData.data with
          | .records data => (setLocalLocations sent.1 data, data)
          | _ => (sent.1, localLocations)
        else (sent.1, localLocations)
  else (s, localLocations)

/-! ## createLocation -/

/-- The coordinate block of `createLocation` (storage.js lines 88-124), run on the
`location` object built on lines 80-86. The format test of line 98 assigns the
fallback and control continues at line 107 in both cases. `none` is the
`TypeError` of the destructuring on line 107. -/
def createLocation.coordinates (locationData location : LocationData) : Option LocationData :=
  if !(prop locationData.coordinates).truthy
      || !((prop locationData.coordinates).getProp "coordinates").truthy then
    some { location with coordinates := some fallbackPoint }
  else
    let coords := (prop locationData.coordinates).getProp "coordinates"
    let location :=
      if invalidCoordinateFormat coords then
        { location with coordinates := some fallbackPoint }
      else location
    match coords.destructure2 with
    | none => none
    | some (lng, lat) =>
        if invalidCoordinateValues lng lat then
          some { location with coordinates := some fallbackPoint }
        else
          some { location with coordinates := some (point lng lat) }

/-- The `catch` block of `createLocation` (storage.js lines 155-159) followed by
the final `return` of line 164. -/
def createLocation.caught (env : Env) (s : StorageManager) (location : LocationData) :
    StorageManager × Outcome OpResult :=
  (addToPendingSync env { s with isBackendAvailable := false } .create location,
    .returned { success := true, data := some location, synced := some false })

/-- The method `createLocation` (storage.js lines 79-165). -/
def createLocation (env : Env) (s : StorageManager) (locationData : LocationData) :
    StorageManager × Outcome OpResult :=
  let id := env.ids s.idsDrawn
  let created := env.clock s.clockReads
  let updated := env.clock (s.clockReads + 1)
  let s := { s with idsDrawn := s.idsDrawn + 1, clockReads := s.clockReads + 2 }
  let location : LocationData :=
    { LocationData.spread { id := some (.str id) } locationData with
      created_at := some (.str created)
      updated_at := some (.str updated)
      source := some (.str "local") }
  match createLocation.coordinates locationData location with
  | none => (s, .threw)
  | some location =>
    let s := setLocalLocations s (getLocalLocations s ++ [location])
    if s.isBackendAvailable then
      let sent := fetch env s { method := .POST, endpoint := .locations, body := some location }
      match sent.2 with
      | .rejected => createLocation.caught env sent.1 location
      | .answered false _ _ =>
          (sent.1, .returned { success := true, data := some location, synced := some false })
      | .answered true none _ => createLocation.caught env sent.1 location
      | .answered true (some result) _ =>
          if result.success then
            match result.data.id with
            | none => createLocation.caught env sent.1 location
            | some serverId =>
                let location := { location with id := some serverId, source := some (.str "backend") }
                (updateLocalLocation sent.1 location,
                  .returned { success := true, data := some location, synced := some true })
          else
            (sent.1, .returned { success := true, data := some location, synced := some false })
    else
      (addToPendingSync env s .create location,
        .returned { success := true, data := some location, synced := some false })

/-! ## updateLocation and deleteLocation -/

/-- The coordinate block of `updateLocation` (storage.js lines 182-214), run on
the `updatedLocation` object built on lines 176-180; `existing` is
`locations[index]`. The destructuring on line 197 is only reached for an array. -/
def updateLocation.coordinates (locationData existing updatedLocation : LocationData) :
    LocationData :=
  if (prop locationData.coordinates).truthy then
    if !((prop locationData.coordinates).getProp "coordinates").truthy then
      { updatedLocation with coordinates := some (prop existing.coordinates) }
    else
      let coords := (prop locationData.coordinates).getProp "coordinates"
      if invalidCoordinateFormat coords then
        { updatedLocation with coordinates := some (prop existing.coordinates) }
      else
        match coords.destructure2 with
        | none => updatedLocation
        | some (lng, lat) =>
            if invalidCoordinateValues lng lat then
              { updatedLocation with coordinates := some (prop existing.coordinates) }
            else
              { updatedLocation with coordinates := some (point lng lat) }
  else updatedLocation

/-- The `catch` block of `updateLocation` (storage.js lines 240-244) followed by
the final `return` of line 249. -/
def updateLocation.caught (env : Env) (s : StorageManager) (updatedLocation : LocationData) :
    StorageManager × Outcome OpResult :=
  (addToPendingSync env { s with isBackendAvailable := false } .update updatedLocation,
    .returned { success := true, data := some updatedLocation, synced := some false })

/-- The method `updateLocation` (storage.js lines 168-250). -/
def updateLocation (env : Env) (s : StorageManager) (id : JsVal) (locationData : LocationData) :
    StorageManager × Outcome OpResult :=
  let locations := getLocalLocations s
  match findIndex (fun loc => (prop loc.id).strictEq id) locations with
  | none => (s, .returned { success := false, error := some "Location not found" })
  | some index =>
    let existing := (locations.get? index).getD {}
    let updated := env.clock s.clockReads
    let s := { s with clockReads := s.clockReads + 1 }
    let updatedLocation : LocationData :=
      { LocationData.spread existing locationData with updated_at := some (.str updated) }
    let updatedLocation := updateLocation.coordinates locationData existing updatedLocation
    let s := setLocalLocations s (locations.set index updatedLocation)
    if s.isBackendAvailable then
      let sent := fetch env s
        { method := .PUT, endpoint := .location id, body := some updatedLocation }
      match sent.2 with
      | .rejected => updateLocation.caught env sent.1 updatedLocation
      | .answered false _ _ =>
          (sent.1, .returned { success := true, data := some updatedLocation, synced := some false })
      | .answered true none _ => updateLocation.caught env sent.1 updatedLocation
      | .answered true (some result) _ =>
          if result.success then
            let updatedLocation := { updatedLocation with source := some (.str "backend") }
            (updateLocalLocation sent.1 updatedLocation,
              .returned { success := true, data := some updatedLocation, synced := some true })
          else
            (sent.1, .returned { success := true, data := some updatedLocation, synced := some false })
    else
      (addToPendingSync env s .update updatedLocation,
        .returned { success := true, data := some updatedLocation, synced := some false })

/-- The `catch` block of `deleteLocation` (storage.js lines 280-284) followed by
the final `return` of line 289. -/
def deleteLocation.caught (env : Env) (s : StorageManager) (id : JsVal) :
    StorageManager × Outcome OpResult :=
  (addToPendingSync env { s with isBackendAvailable := false } .delete { id := some id },
    .returned { success := true, synced := some false })

/-- The method `deleteLocation` (storage.js lines 253-290). -/
def deleteLocation (env : Env) (s : StorageManager) (id : JsVal) :
    StorageManager × Outcome OpResult :=
  let locations := getLocalLocations s
  match findIndex (fun loc => (prop loc.id).strictEq id) locations with
  | none => (s, .returned { success := false, error := some "Location not found" })
  | some index =>
    let s := setLocalLocations s (locations.eraseIdx index)
    if s.isBackendAvailable then
      let sent := fetch env s { method := .DELETE, endpoint := .location id }
      match sent.2 with
      | .rejected => deleteLocation.caught env sent.1 id
      | .answered false _ _ => (sent.1, .returned { success := true, synced := some false })
      | .answered true none _ => deleteLocation.caught env sent.1 id
      | .answered true (some result) _ =>
          if result.success then
            (sent.1, .returned { success := true, synced := some true })
          else
            (sent.1, .returned { success := true, synced := some false })
    else
      (addToPendingSync env s .delete { id := some id },
        .returned { success := true, synced := some false })

/-! ## syncPendingOperations -/

/-- The object `createData` / `updateData` built from a queued operation
(storage.js lines 309-315 and 357-363). -/
def payloadOf (data : LocationData) : LocationData where
  name := some (prop data.name)
  category := some (prop data.category)
  description := some (orEmpty (prop data.description))
  address := some (orEmpty (prop data.address))
  coordinates := some (prop data.coordinates)

/-- The format test of the replay (storage.js lines 320 and 368):
`!c || !c.coordinates || !Array.isArray(c.coordinates)` for the payload
coordinates `c`. -/
def invalidPayloadCoordinates (c : JsVal) : Bool :=
  !c.truthy || !(c.getProp "coordinates").truthy || !(c.getProp "coordinates").isArray

/-- One iteration of the loop of `syncPendingOperations` (storage.js lines
302-423). The boolean tells whether the operation was pushed to
`syncedOperations`. An exception inside the `try` leaves it unpushed. -/
def syncOperation (env : Env) (s : StorageManager) (operation : PendingOp) :
    StorageManager × Bool :=
  match operation.type with
  | .create =>
      let createData := payloadOf operation.data
      if invalidPayloadCoordinates (prop createData.coordinates) then (s, true)
      else
        let sent := fetch env s
          { method := .POST, endpoint := .locations, body := some createData }
        match sent.2 with
        | .rejected => (sent.1, false)
        | .answered false _ errorText => (sent.1, includes errorText "Coordinates are required")
        | .answered true none _ => (sent.1, false)
        | .answered true (some result) _ =>
            if result.success then
              match result.data.id with
              | none => (sent.1, false)
              | some serverId =>
                  (updateLocalLocation sent.1
                    { operation.data with id := some serverId, source := some (.str "backend") },
                    true)
            else (sent.1, false)
  | .update =>
      let updateData := payloadOf operation.data
      if invalidPayloadCoordinates (prop updateData.coordinates) then (s, true)
      else
        let sent := fetch env s
          { method := .PUT, endpoint := .location (prop operation.data.id), body := some updateData }
        match sent.2 with
        | .rejected => (sent.1, false)
        | .answered false _ errorText => (sent.1, includes errorText "Coordinates are required")
        | .answered true none _ => (sent.1, false)
        | .answered true (some result) _ =>
            if result.success then
              (updateLocalLocation sent.1 { operation.data with source := some (.str "backend") },
                true)
            else (sent.1, false)
  | .delete =>
      let sent := fetch env s { method := .DELETE, endpoint := .location (prop operation.data.id) }
      match sent.2 with
      | .rejected => (sent.1, false)
      | .answered false _ _ => (sent.1, false)
      | .answered true none _ => (sent.1, false)
      | .answered true (some result) _ => (sent.1, result.success)

/-- The loop of `syncPendingOperations` over the queue, with the filter of line
426: the state after the last iteration and the operations that were not pushed
to `syncedOperations`, in their order. The filter compares object identity and
every queued operation is an object of its own, so it keeps an operation exactly
when its own iteration did not push it. -/
def syncLoop (env : Env) : StorageManager → List PendingOp → StorageManager × List PendingOp
  | s, [] => (s, [])
  | s, operation :: rest =>
      let step := syncOperation env s operation
      let done := syncLoop env step.1 rest
      (done.1, if step.2 then done.2 else operation :: done.2)

/-- The method `syncPendingOperations` (storage.js lines 293-430). -/
def syncPendingOperations (env : Env) (s : StorageManager) : StorageManager :=
  if !s.isBackendAvailable || s.pendingSync.length == 0 then s
  else
    let done := syncLoop env s s.pendingSync
    savePendingSync { done.1 with pendingSync := done.2 }

/-! ## Observations and sample inputs -/

/-- The coordinates of the record stored last in the local record set, if the
set is not empty. -/
def lastCoordinates (s : StorageManager) : Option (Option JsVal) :=
  (getLocalLocations s).getLast?.map (·.coordinates)

/-- A store with nothing in `localStorage` and an empty queue. -/
def emptyStore (available : Bool) : StorageManager where
  isBackendAvailable := available
  pendingSync := []
  localStorage := {}

/-- An environment whose backend is out of reach: every `fetch` rejects. -/
def offlineEnv : Env where
  hostname := "localhost"
  backend := fun _ _ => .rejected
  clock := fun n => "t" ++ toString n
  ids := fun n => "local-" ++ toString n

/-- An environment whose backend accepts every request and answers a create
with a record carrying the id `srv-1`. -/
def acceptingEnv : Env where
  hostname := "localhost"
  backend := fun _ _ =>
    .answered true (some { success := true, data := .record { id := some (.str "srv-1") } }) ""
  clock := fun n => "t" ++ toString n
  ids := fun n => "local-" ++ toString n

/-- An environment whose backend answers every request with a status that is
not ok (an HTTP 500 page). -/
def failingEnv : Env where
  hostname := "localhost"
  backend := fun _ _ => .answered false none "Internal Server Error"
  clock := fun n => "t" ++ toString n
  ids := fun n => "local-" ++ toString n

/-- The point `[106.8275, -6.1754]` of the example scenario. -/
def monas : JsVal :=
  point (.num (.fin (1068275 / 10000))) (.num (.fin (-61754 / 10000)))

/-- A point whose inner array has three elements, `[10, 20, 30]`. -/
def threeElementPoint : JsVal :=
  .obj [("type", .str "Point"),
    ("coordinates", .arr [.num (.fin 10), .num (.fin 20), .num (.fin 30)])]

/-- A point whose inner value is the number `5`, truthy and not iterable. -/
def numberInsidePoint : JsVal :=
  .obj [("type", .str "Point"), ("coordinates", .num (.fin 5))]

/-- The request body and the stored record of the example scenario:
`{ name: "Monas", coordinates: { type: "Point", coordinates: [106.8275, -6.1754] } }`. -/
def monasData : LocationData :=
  { name := some (.str "Monas"), coordinates := some monas }

/-- A store whose record set holds one record, with id `a` and the coordinates
of the example scenario, while the backend is believed out of reach. -/
def storeWithMonas : StorageManager where
  isBackendAvailable := false
  pendingSync := []
  localStorage :=
    { locations := some [{ id := some (.str "a"), name := some (.str "Monas"),
                           coordinates := some monas, source := some (.str "local") }] }

/-- A store believed online whose queue holds a create, an update and a delete,
saved to the durable key. -/
def queuedStore : StorageManager :=
  savePendingSync
    { isBackendAvailable := true
      pendingSync :=
        [{ type := .create, data := { monasData with id := some (.str "local-0") }, timestamp := "t0" },
         { type := .update, data := { monasData with id := some (.str "a") }, timestamp := "t1" },
         { type := .delete, data := { id := some (.str "b") }, timestamp := "t2" }]
      localStorage := {} }

/-! ## Replay requests, accepting backends, mutating calls -/

/-- The HTTP method used to replay an operation of the given type
(storage.js lines 327, 375 and 403). -/
def OpType.method : OpType → Method
  | .create => .POST
  | .update => .PUT
  | .delete => .DELETE

/-- The request by which `syncPendingOperations` replays a queued operation
(storage.js lines 326-330, 374-378 and 402-404). -/
def replayRequest (operation : PendingOp) : Request where
  method := operation.type.method
  endpoint :=
    match operation.type with
    | .create => .locations
    | _ => .location (prop operation.data.id)
  body :=
    match operation.type with
    | .delete => none
    | _ => some (payloadOf operation.data)

/-- The backend accepts a request: the status is ok, the body decodes to a result
with a truthy `success`, and the answer to a create (`POST`) carries `data`. -/
def accepts (request : Request) : Response → Bool
  | .answered true (some result) _ =>
      result.success && (request.method != .POST || result.data.id.isSome)
  | _ => false

/-- A call of one of the three mutating methods of the store. -/
inductive Call where
  | createLocation (locationData : LocationData)
  | updateLocation (id : JsVal) (locationData : LocationData)
  | deleteLocation (id : JsVal)

/-- Running a call of a mutating method. -/
def Call.run (env : Env) (s : StorageManager) : Call → StorageManager × Outcome OpResult
  | .createLocation locationData => Gis.createLocation env s locationData
  | .updateLocation id locationData => Gis.updateLocation env s id locationData
  | .deleteLocation id => Gis.deleteLocation env s id

/-! ## Decoded JSON, the replay rule, further sample inputs -/

/-- The local record set holds decoded JSON: every stored record is its own JSON
image (no key holds `undefined` and no number is `NaN` or infinite). -/
def storedAsJson (s : StorageManager) : Prop :=
  ∀ r ∈ getLocalLocations s, r.json = r

/-- The stored ids are pairwise distinct under `===`. -/
def distinctIds (locations : List LocationData) : Prop :=
  locations.Pairwise fun a b => (prop a.id).strictEq (prop b.id) = false

/-- Whether the answer to its replay request removes an operation from the
queue: an ok answer whose body has a truthy `success` (with `data`, for a
create), or, for a create or an update, an answer that is not ok and whose text
contains `Coordinates are required`. -/
def removedBy (operation : PendingOp) : Response → Bool
  | .answered true (some result) _ =>
      result.success && (operation.type != .create || result.data.id.isSome)
  | .answered false _ text =>
      operation.type != .delete && includes text "Coordinates are required"
  | _ => false

/-- The queue left by a replay, stated from the answers of the backend: a create
or update whose payload fails the format test is dropped without a request; every
other operation is replayed by one request and stays queued unless the answer
removes it. `history` is the log of the requests made so far. -/
def remainingAfterReplay (env : Env) : List Request → List PendingOp → List PendingOp
  | _, [] => []
  | history, operation :: rest =>
      if operation.type != .delete
          && invalidPayloadCoordinates (prop operation.data.coordinates) then
        remainingAfterReplay env history rest
      else if removedBy operation (env.backend history (replayRequest operation)) then
        remainingAfterReplay env (history ++ [replayRequest operation]) rest
      else
        operation :: remainingAfterReplay env (history ++ [replayRequest operation]) rest

/-- The store `storeWithMonas` while the backend is believed reachable. -/
def onlineStoreWithMonas : StorageManager :=
  { storeWithMonas with isBackendAvailable := true }

/-- An environment whose backend refuses every request with a status that is not
ok and the text `Coordinates are required`. -/
def refusingEnv : Env where
  hostname := "localhost"
  backend := fun _ _ => .answered false none "Coordinates are required"
  clock := fun n => "t" ++ toString n
  ids := fun n => "local-" ++ toString n

/-- An environment whose backend answers every request with ok and a list of one
record, with the id `srv-1`. -/
def listingEnv : Env where
  hostname := "localhost"
  backend := fun _ _ =>
    .answered true
      (some { success := true,
              data := .records [{ id := some (.str "srv-1"), name := some (.str "Monas"),
                                  coordinates := some monas }] }) ""
  clock := fun n => "t" ++ toString n
  ids := fun n => "local-" ++ toString n

/-- A point out of range, `[999, 999]`. -/
def farPoint : JsVal :=
  point (.num (.fin 999)) (.num (.fin 999))

/-- A store believed online whose queue holds one create. -/
def storeWithQueuedCreate (coordinates : JsVal) : StorageManager :=
  savePendingSync
    { isBackendAvailable := true
      pendingSync :=
        [{ type := .create,
           data := { id := some (.str "local-0"), name := some (.str "Monas"),
                     coordinates := some coordinates },
           timestamp := "t0" }]
      localStorage := {} }

/-- The record that `updateLocation` writes at the matched position
(storage.js lines 176-214). -/
def updatedRecord (env : Env) (s : StorageManager) (existing locationData : LocationData) :
    LocationData :=
  updateLocation.coordinates locationData existing
    { LocationData.spread existing locationData with
      updated_at := some (.str (env.clock s.clockReads)) }

/-- The object `location` built by `createLocation` before the coordinate block
(storage.js lines 80-86). -/
def newRecord (env : Env) (s : StorageManager) (locationData : LocationData) : LocationData :=
  { LocationData.spread { id := some (.str (env.ids s.idsDrawn)) } locationData with
    created_at := some (.str (env.clock s.clockReads))
    updated_at := some (.str (env.clock (s.clockReads + 1)))
    source := some (.str "local") }

/-- The list request of `getLocations`. -/
def listRequest : Request :=
  { method := .GET, endpoint := .locations }

/-- A failed list fetch: the fetch rejects, the status is not ok, the body does
not decode, or the decoded body lacks a truthy `success` or lacks `data`. -/
def listFailure : Response → Bool
  | .rejected => true
  | .answered false _ _ => true
  | .answered true none _ => true
  | .answered true (some result) _ =>
      !result.success ||
        (match result.data with
          | .absent => true
          | _ => false)

/-- A failed list fetch that raises an exception inside the `try`: the fetch
rejects or the body does not decode. -/
def raises : Response → Bool
  | .rejected => true
  | .answered true none _ => true
  | _ => false

/-- An environment whose backend accepts a create, is out of reach for an update
and refuses a delete with a status that is not ok. -/
def mixedEnv : Env where
  hostname := "localhost"
  backend := fun _ request =>
    match request.method with
    | .POST =>
        .answered true (some { success := true, data := .record { id := some (.str "srv-1") } }) ""
    | .PUT => .rejected
    | _ => .answered false none "Internal Server Error"
  clock := fun n => "t" ++ toString n
  ids := fun n => "local-" ++ toString n

/-- A store believed out of reach whose record set holds two records, with the
ids `a` and `b`. -/
def twoRecordStore : StorageManager where
  isBackendAvailable := false
  pendingSync := []
  localStorage :=
    { locations := some [{ id := some (.str "a"), name := some (.str "Monas"),
                           coordinates := some monas, source := some (.str "local") },
                         { id := some (.str "b"), name := some (.str "Tugu"),
                           coordinates := some monas, source := some (.str "local") }] }

/-! ## Operations of the store, replayed operations, further sample inputs -/

/-- The probe request of `checkBackendConnection`. -/
def healthRequest : Request :=
  { method := .GET, endpoint := .health }

/-- A call of one of the methods of the store other than the probe. -/
inductive Operation where
  | getLocations
  | mutate (call : Call)
  | syncPendingOperations
  | clearLocalData

/-- The state after running an operation. -/
def Operation.run (env : Env) (s : StorageManager) : Operation → StorageManager
  | .getLocations => (Gis.getLocations env s).1
  | .mutate call => (call.run env s).1
  | .syncPendingOperations => Gis.syncPendingOperations env s
  | .clearLocalData => Gis.clearLocalData s

/-- The operation changes the pending queue: a mutating call or `getLocations`
after which the in-memory queue differs, `syncPendingOperations` when its guard
lets it through, and `clearLocalData`. -/
def Operation.changesQueue (env : Env) (s : StorageManager) : Operation → Prop
  | .getLocations => (Operation.getLocations.run env s).pendingSync ≠ s.pendingSync
  | .mutate call => ((Operation.mutate call).run env s).pendingSync ≠ s.pendingSync
  | .syncPendingOperations => s.isBackendAvailable = true ∧ s.pendingSync ≠ []
  | .clearLocalData => True

/-- An environment whose backend refuses a create with the text
`Coordinates are required`, refuses an update with another text, and accepts a
delete. -/
def pickyEnv : Env where
  hostname := "localhost"
  backend := fun _ request =>
    match request.method with
    | .POST => .answered false none "400: Coordinates are required"
    | .PUT => .answered false none "Internal Server Error"
    | _ => .answered true (some { success := true, data := .absent }) ""
  clock := fun n => "t" ++ toString n
  ids := fun n => "local-" ++ toString n

/-- Whether the loop of `syncPendingOperations` replays an operation: every
delete, and every create or update whose payload passes the format test. -/
def isReplayed (operation : PendingOp) : Bool :=
  !(operation.type != .delete && invalidPayloadCoordinates (prop operation.data.coordinates))

/-- A store believed online whose queue holds a create, an update and a delete
that were all enqueued for the record with the local id `local-0`. -/
def chainedStore : StorageManager :=
  savePendingSync
    { isBackendAvailable := true
      pendingSync :=
        [{ type := .create, data := { monasData with id := some (.str "local-0") }, timestamp := "t0" },
         { type := .update, data := { monasData with id := some (.str "local-0") }, timestamp := "t1" },
         { type := .delete, data := { id := some (.str "local-0") }, timestamp := "t2" }]
      localStorage := {} }

/-- The store `onlineStoreWithMonas` with one queued update of its record. -/
def storeWithQueuedUpdate : StorageManager :=
  savePendingSync
    { onlineStoreWithMonas with
      pendingSync :=
        [{ type := .update,
           data := { id := some (.str "a"), name := some (.str "Tugu"), coordinates := some monas },
           timestamp := "t0" }] }

/-! ## The local writes of the replay -/

/-- What `updateLocalLocation` does to the stored list: the first record that has
the id of `d` is replaced by `d` and the list is written back as JSON; without
such a record the list is left alone. -/
def writeLocal (locations : List LocationData) (d : LocationData) : List LocationData :=
  match findIndex (fun loc : LocationData => (prop loc.id).strictEq (prop d.id)) locations with
  | some index => (locations.set index d).map LocationData.json
  | none => locations

/-- The data that a successful replay of an operation hands to
`updateLocalLocation` (storage.js lines 339-341 and 386-387): for a create
accepted with a server id, the data of the operation with that id and the source
`backend`; for an accepted update, its data with the source `backend`. `none`
when the operation is not replayed, is a delete, or its replay does not succeed. -/
def replayWrites (env : Env) (history : List Request) (operation : PendingOp) :
    Option LocationData :=
  if isReplayed operation then
    match operation.type, env.backend history (replayRequest operation) with
    | .create, .answered true (some result) _ =>
        if result.success then
          match result.data.id with
          | some serverId =>
              some { operation.data with id := some serverId, source := some (.str "backend") }
          | none => none
        else none
    | .update, .answered true (some result) _ =>
        if result.success then some { operation.data with source := some (.str "backend") }
        else none
    | _, _ => none
  else none

/-- The record `r'` at some position after a replay comes from the record `r` at
that position before it: it is `r` itself, or the stored data of a successfully
replayed create or update of the queue whose id is the id of `r`. -/
def replayedOnto (env : Env) (queue : List PendingOp) (r r' : LocationData) : Prop :=
  r' = r ∨
    ∃ operation ∈ queue, ∃ history d,
      replayWrites env history operation = some d ∧
        (prop r.id).strictEq (prop d.id) = true ∧ r' = d.json

/-- The invariant of the replay loop on the stored list `current`, relative to the
list `initial` stored before the replay. -/
def replayInvariant (env : Env) (queue : List PendingOp) (initial current : List LocationData) :
    Prop :=
  current.length = initial.length ∧
    ∀ k r', current.get? k = some r' →
      r'.json = r' ∧
        ∃ r, initial.get? k = some r ∧ prop r'.id = prop r.id ∧ replayedOnto env queue r r'

/-! ## The location form, export and import (location.js) -/

/-- The value of `v || 'text'` for a string literal `text`. -/
def orText (v : JsVal) (text : String) : JsVal :=
  if v.truthy then v else .str text

/-- The values of the four inputs of the location form. -/
structure FormValues where
  name : String
  category : String
  description : String
  address : String

/-- What `LocationManager.getFormData` reads besides the form: its `formMode`,
its `editingLocation` (`none` for `null`), and `app.selectedCoords`. -/
structure LocationManager where
  formMode : String
  editingLocation : Option LocationData
  selectedCoords : JsVal

/-- The method `LocationManager.getFormData` (location.js lines 61-77). In edit
mode with a record being edited the coordinates are those of that record;
otherwise they are built from `selectedCoords.lng` and `selectedCoords.lat`, and
reading these off `null` or `undefined` throws. The key `properties` is left
out. -/
def LocationManager.getFormData (m : LocationManager) (form : FormValues) :
    Outcome LocationData :=
  let fields (coordinates : JsVal) : LocationData :=
    { name := some (.str form.name)
      category := some (.str form.category)
      description := some (.str form.description)
      address := some (.str form.address)
      coordinates := some coordinates }
  match m.formMode == "edit", m.editingLocation with
  | true, some editing => .returned (fields (prop editing.coordinates))
  | _, _ =>
      match m.selectedCoords with
      | .undefined => .threw
      | .null => .threw
      | selected =>
          .returned (fields (point (selected.getProp "lng") (selected.getProp "lat")))

/-- The method `GISApps.handleMapClick` (app-fixed.js lines 106-111, app-new.js
lines 369-372): the value stored in `selectedCoords` for a click at `lng`, `lat`. -/
def handleMapClick (lng lat : JsVal) : JsVal :=
  point lng lat

/-- A GeoJSON feature `{ type: 'Feature', geometry, properties }`; a key is
absent (`none`) or present. -/
structure Feature where
  geometry : Option JsVal
  properties : Option LocationData

/-- A feature through `JSON.stringify` and `JSON.parse`. -/
def Feature.json (f : Feature) : Feature where
  geometry := jsonField f.geometry
  properties := f.properties.map LocationData.json

/-- The feature that `LocationManager.exportLocations` builds from one record on
its local path (location.js lines 242-254). -/
def exportFeature (loc : LocationData) : Feature where
  geometry := some (prop loc.coordinates)
  properties := some
    { id := some (prop loc.id)
      name := some (prop loc.name)
      category := some (prop loc.category)
      description := some (prop loc.description)
      address := some (prop loc.address)
      created_at := some (prop loc.created_at)
      updated_at := some (prop loc.updated_at) }

/-- The features built by `LocationManager.exportLocations` on its local path
(location.js lines 240-254), one per record. -/
def exportFeatures (locations : List LocationData) : List Feature :=
  locations.map exportFeature

/-- The features read back from the file that `exportLocations` writes with
`JSON.stringify` (location.js line 258). -/
def exportedFile (locations : List LocationData) : List Feature :=
  (exportFeatures locations).map Feature.json

/-- The counters `importedCount` and `errorCount` of `importLocations`. -/
structure ImportReport where
  importedCount : Nat
  errorCount : Nat

/-- The object `locationData` that `importLocations` builds from a feature
(location.js lines 297-304); `none` is the `TypeError` of reading a member of
missing `properties`. The key `properties` is left out. -/
def importData (feature : Feature) : Option LocationData :=
  match feature.properties with
  | none => none
  | some properties =>
      some
        { name := some (orText (prop properties.name) "Unnamed Location")
          category := some (orText (prop properties.category) "poi")
          description := some (orText (prop properties.description) "")
          address := some (orText (prop properties.address) "")
          coordinates := some (prop feature.geometry) }

/-- The loop of `LocationManager.importLocations` over the features of the file
(location.js lines 295-319). -/
def importLoop (env : Env) :
    StorageManager → ImportReport → List Feature → StorageManager × ImportReport
  | s, report, [] => (s, report)
  | s, report, feature :: rest =>
      match importData feature with
      | none => importLoop env s { report with errorCount := report.errorCount + 1 } rest
      | some locationData =>
          let created := createLocation env s locationData
          match created.2 with
          | .returned response =>
              if response.success then
                importLoop env created.1
                  { report with importedCount := report.importedCount + 1 } rest
              else
                importLoop env created.1 { report with errorCount := report.errorCount + 1 } rest
          | .threw =>
              importLoop env created.1 { report with errorCount := report.errorCount + 1 } rest

/-- The method `LocationManager.importLocations` applied to the features of a
decoded file (location.js lines 283-327): the loop, then `app.loadLocations()`,
which calls `getLocations`. -/
def importLocations (env : Env) (s : StorageManager) (features : List Feature) :
    StorageManager × ImportReport :=
  let done := importLoop env s { importedCount := 0, errorCount := 0 } features
  ((getLocations env done.1).1, done.2)

/-- A record with name, category and coordinates but no address. -/
def recordWithoutAddress : LocationData :=
  { id := some (.str "a"), name := some (.str "Monas"), category := some (.str "poi"),
    description := some (.str "Monument"),
    coordinates := some (point (.num (.fin 10)) (.num (.fin 20))) }

/-- The name, category, description, address and coordinates of a record. -/
def LocationData.formFields (r : LocationData) :
    Option JsVal × Option JsVal × Option JsVal × Option JsVal × Option JsVal :=
  (r.name, r.category, r.description, r.address, r.coordinates)

/-! ## Lemmas on the helper methods -/

theorem json_point (a b : ℚ) :
    (point (.num (.fin a)) (.num (.fin b))).json = point (.num (.fin a)) (.num (.fin b)) :=
  rfl

theorem jsonField_point (a b : ℚ) :
    jsonField (some (point (.num (.fin a)) (.num (.fin b))))
      = some (point (.num (.fin a)) (.num (.fin b))) :=
  rfl

@[simp]
theorem getLocalLocations_setLocalLocations (s : StorageManager) (l : List LocationData) :
    getLocalLocations (setLocalLocations s l) = l.map LocationData.json :=
  rfl

@[simp]
theorem getLocalLocations_addToPendingSync (env : Env) (s : StorageManager) (t : OpType)
    (d : LocationData) : getLocalLocations (addToPendingSync env s t d) = getLocalLocations s :=
  rfl

@[simp]
theorem getLocalLocations_fetch (env : Env) (s : StorageManager) (r : Request) :
    getLocalLocations (fetch env s r).1 = getLocalLocations s :=
  rfl

theorem getLast?_set_cases {α : Type} (l : List α) (i : Nat) (u : α) :
    (l.set i u).getLast? = l.getLast? ∨ (l.set i u).getLast? = some u := by
  rw [List.getLast?_eq_getElem?, List.getLast?_eq_getElem?, List.length_set, List.getElem?_set]
  by_cases h : i = l.length - 1
  · by_cases h2 : l.length - 1 < l.length
    · right; simp [h, h2]
    · left; simp [h, h2]
      omega
  · left; simp [h]

/-- Replacing a stored record by one with the same coordinates as the last record
keeps the coordinates of the last record. -/
theorem lastCoordinates_updateLocalLocation (s : StorageManager) (u : LocationData) (c : JsVal)
    (hlast : lastCoordinates s = some (some c)) (hu : u.coordinates = some c)
    (hc : jsonField (some c) = some c) :
    lastCoordinates (updateLocalLocation s u) = some (some c) := by
  unfold updateLocalLocation
  simp only []
  split
  · rename_i index _
    unfold lastCoordinates at hlast ⊢
    rw [getLocalLocations_setLocalLocations, List.getLast?_map]
    rcases getLast?_set_cases (getLocalLocations s) index u with h | h
    · rw [h]
      cases hl : (getLocalLocations s).getLast? with
      | none => simp [hl] at hlast
      | some x =>
        simp [hl] at hlast
        simp [LocationData.json, hlast, hc]
    · rw [h]
      simp [LocationData.json, hu, hc]
  · exact hlast

/-- When the coordinate block of `createLocation` settles on the value `c`, the
call returns and the record stored last has the coordinates `c`, whatever the
backend does. -/
theorem createLocation_lastCoordinates (env : Env) (s : StorageManager)
    (locationData : LocationData) (c : JsVal)
    (hblock : ∀ location, createLocation.coordinates locationData location
      = some { location with coordinates := some c })
    (hj : jsonField (some c) = some c) :
    (∃ result, (createLocation env s locationData).2 = .returned result) ∧
      lastCoordinates (createLocation env s locationData).1 = some (some c) := by
  unfold createLocation
  simp only [hblock]
  have hbase : ∀ (t : StorageManager) (loc : LocationData), loc.coordinates = some c →
      lastCoordinates (setLocalLocations t (getLocalLocations t ++ [loc])) = some (some c) := by
    intro t loc hloc
    simp [lastCoordinates, LocationData.json, hloc, hj]
  split
  · split
    · exact ⟨⟨_, rfl⟩, hbase _ _ rfl⟩
    · exact ⟨⟨_, rfl⟩, hbase _ _ rfl⟩
    · exact ⟨⟨_, rfl⟩, hbase _ _ rfl⟩
    · split
      · split
        · exact ⟨⟨_, rfl⟩, hbase _ _ rfl⟩
        · refine ⟨⟨_, rfl⟩, ?_⟩
          exact lastCoordinates_updateLocalLocation _ _ _ (hbase _ _ rfl) rfl hj
      · exact ⟨⟨_, rfl⟩, hbase _ _ rfl⟩
  · exact ⟨⟨_, rfl⟩, hbase _ _ rfl⟩

/-- The coordinate block of `createLocation` on a pair of numbers in range. -/
theorem createLocation_coordinates_valid (locationData location : LocationData) (lng lat : ℚ)
    (hc : locationData.coordinates = some (point (.num (.fin lng)) (.num (.fin lat))))
    (hlng : -180 ≤ lng ∧ lng ≤ 180) (hlat : -90 ≤ lat ∧ lat ≤ 90) :
    createLocation.coordinates locationData location
      = some { location with coordinates := some (point (.num (.fin lng)) (.num (.fin lat))) } := by
  have h1 : ¬ lng < -180 := not_lt.mpr hlng.1
  have h2 : ¬ 180 < lng := not_lt.mpr hlng.2
  have h3 : ¬ lat < -90 := not_lt.mpr hlat.1
  have h4 : ¬ 90 < lat := not_lt.mpr hlat.2
  simp [createLocation.coordinates, hc, prop, point, JsVal.truthy, JsVal.getProp, List.lookup,
    invalidCoordinateFormat, JsVal.destructure2, nthOrUndefined, invalidCoordinateValues,
    JsNum.isNaN, JsNum.ltConst, JsNum.gtConst, h1, h2, h3, h4]

/-- The coordinate block of `createLocation` on the data of the example
scenario. -/
theorem createLocation_coordinates_monas (location : LocationData) :
    createLocation.coordinates monasData location
      = some { location with coordinates := some monas } :=
  createLocation_coordinates_valid monasData location _ _ rfl (by norm_num) (by norm_num)

theorem findIndex_eq_none {α : Type} (p : α → Bool) :
    ∀ l : List α, (∀ x ∈ l, p x = false) → findIndex p l = none
  | [], _ => rfl
  | x :: xs, h => by
    have hx := h x (List.mem_cons_self _ _)
    have hxs := findIndex_eq_none p xs (fun y hy => h y (List.mem_cons_of_mem _ hy))
    simp [findIndex, hx, hxs]

@[simp]
theorem requests_updateLocalLocation (s : StorageManager) (u : LocationData) :
    (updateLocalLocation s u).requests = s.requests := by
  unfold updateLocalLocation
  simp only []
  split <;> rfl

/-- What an accepted request was answered with. -/
theorem accepts_shape (request : Request) (response : Response)
    (h : accepts request response = true) :
    ∃ result text, response = .answered true (some result) text ∧ result.success = true ∧
      (request.method = .POST → ∃ id, result.data.id = some id) := by
  match response, h with
  | .answered true (some result) text, h =>
    simp only [accepts, Bool.and_eq_true, Bool.or_eq_true, bne_iff_ne, ne_eq] at h
    refine ⟨result, text, rfl, h.1, fun hm => ?_⟩
    rcases h.2 with h2 | h2
    · exact absurd hm h2
    · exact Option.isSome_iff_exists.mp h2

/-- One iteration of the replay loop against an accepting backend: the operation
is pushed to `syncedOperations` and exactly its replay request is made. -/
theorem syncOperation_accepted (env : Env) (s : StorageManager) (operation : PendingOp)
    (hvalid : operation.type ≠ .delete →
      invalidPayloadCoordinates (prop operation.data.coordinates) = false)
    (haccept : ∀ history request, accepts request (env.backend history request) = true) :
    (syncOperation env s operation).2 = true ∧
      (syncOperation env s operation).1.requests = s.requests ++ [replayRequest operation] := by
  unfold syncOperation
  cases htype : operation.type with
  | create =>
    have hv : invalidPayloadCoordinates (prop (payloadOf operation.data).coordinates) = false :=
      hvalid (by simp [htype])
    obtain ⟨result, text, hr, hs, hid⟩ := accepts_shape _ _ (haccept s.requests
      { method := .POST, endpoint := .locations, body := some (payloadOf operation.data) })
    obtain ⟨id, hid⟩ := hid rfl
    simp only [hv, fetch, hr, hs, hid, Bool.false_eq_true, if_false, if_true,
      requests_updateLocalLocation, replayRequest, htype, OpType.method, and_self]
  | update =>
    have hv : invalidPayloadCoordinates (prop (payloadOf operation.data).coordinates) = false :=
      hvalid (by simp [htype])
    obtain ⟨result, text, hr, hs, -⟩ := accepts_shape _ _ (haccept s.requests
      { method := .PUT, endpoint := .location (prop operation.data.id),
        body := some (payloadOf operation.data) })
    simp only [hv, fetch, hr, hs, Bool.false_eq_true, if_false, if_true,
      requests_updateLocalLocation, replayRequest, htype, OpType.method, and_self]
  | delete =>
    obtain ⟨result, text, hr, hs, -⟩ := accepts_shape _ _ (haccept s.requests
      { method := .DELETE, endpoint := .location (prop operation.data.id) })
    simp only [fetch, hr, hs, replayRequest, htype, OpType.method, and_self]

/-- The replay loop against an accepting backend keeps no operation and makes the
replay requests of the queue, in queue order. -/
theorem syncLoop_accepted (env : Env)
    (haccept : ∀ history request, accepts request (env.backend history request) = true) :
    ∀ (ops : List PendingOp) (s : StorageManager),
      (∀ op ∈ ops, op.type ≠ .delete →
        invalidPayloadCoordinates (prop op.data.coordinates) = false) →
      (syncLoop env s ops).2 = [] ∧
        (syncLoop env s ops).1.requests = s.requests ++ ops.map replayRequest
  | [], s, _ => by simp [syncLoop]
  | op :: rest, s, hvalid => by
    have hstep := syncOperation_accepted env s op (hvalid op (List.mem_cons_self _ _)) haccept
    have hrest := syncLoop_accepted env haccept rest (syncOperation env s op).1
      (fun o ho => hvalid o (List.mem_cons_of_mem _ ho))
    simp [syncLoop, hstep.1, hrest.1, hrest.2, hstep.2]

/-! ## Further lemmas: lists, ids, and the structure of the operations -/

theorem strictEq_eq (a b : JsVal) (h : a.strictEq b = true) : a = b := by
  cases a <;> cases b <;> simp [JsVal.strictEq] at h ⊢
  · exact h
  · rename_i x y
    cases x <;> cases y <;> simp [JsVal.strictEq] at h ⊢
    exact h
  · exact h

theorem findIndex_some {α : Type} (p : α → Bool) :
    ∀ (l : List α) (i : Nat), findIndex p l = some i → ∃ x, l.get? i = some x ∧ p x = true
  | [], i, h => by simp [findIndex] at h
  | x :: xs, i, h => by
    by_cases hx : p x = true
    · simp [findIndex, hx] at h
      subst h
      exact ⟨x, rfl, hx⟩
    · simp [findIndex, hx] at h
      obtain ⟨j, hj, rfl⟩ := h
      obtain ⟨y, hy, hpy⟩ := findIndex_some p xs j hj
      exact ⟨y, by simpa using hy, hpy⟩

theorem findIndex_isSome {α : Type} (p : α → Bool) :
    ∀ (l : List α), (∃ x ∈ l, p x = true) → ∃ i, findIndex p l = some i
  | [], h => by simp at h
  | x :: xs, h => by
    by_cases hx : p x = true
    · exact ⟨0, by simp [findIndex, hx]⟩
    · have : ∃ y ∈ xs, p y = true := by
        obtain ⟨y, hy, hpy⟩ := h
        rcases List.mem_cons.mp hy with rfl | hy
        · exact absurd hpy hx
        · exact ⟨y, hy, hpy⟩
      obtain ⟨j, hj⟩ := findIndex_isSome p xs this
      exact ⟨j + 1, by simp [findIndex, hx, hj]⟩

/-- Erasing the first record with the id leaves no record with the id, when the
ids are pairwise distinct. -/
theorem eraseIdx_findIndex_distinct (id : JsVal) :
    ∀ (l : List LocationData) (i : Nat), distinctIds l →
      findIndex (fun loc : LocationData => (prop loc.id).strictEq id) l = some i →
      ∀ r ∈ l.eraseIdx i, (prop r.id).strictEq id = false
  | [], i, _, h => by simp [findIndex] at h
  | x :: xs, i, hd, h => by
    have hd' := List.pairwise_cons.mp hd
    by_cases hx : (prop x.id).strictEq id = true
    · simp [findIndex, hx] at h
      subst h
      intro r hr
      simp only [List.eraseIdx_cons_zero] at hr
      have hxr := hd'.1 r hr
      cases hri : (prop r.id).strictEq id with
      | false => rfl
      | true =>
        have e1 := strictEq_eq _ _ hx
        have e2 := strictEq_eq _ _ hri
        rw [e1, e2] at hxr
        rw [e2] at hri
        rw [hri] at hxr
        exact absurd hxr (by simp)
    · simp [findIndex, hx] at h
      obtain ⟨j, hj, rfl⟩ := h
      intro r hr
      simp only [List.eraseIdx_cons_succ] at hr
      rcases List.mem_cons.mp hr with rfl | hr
      · simpa using hx
      · exact eraseIdx_findIndex_distinct id xs j hd'.2 hj r hr

/-- A delete that finds its record erases it from the local record set and
returns success, whatever the backend answers. -/
theorem deleteLocation_found (env : Env) (s : StorageManager) (id : JsVal) (i : Nat)
    (hfind : findIndex (fun loc : LocationData => (prop loc.id).strictEq id)
      (getLocalLocations s) = some i) :
    getLocalLocations (deleteLocation env s id).1
        = ((getLocalLocations s).eraseIdx i).map LocationData.json ∧
      ∃ result, (deleteLocation env s id).2 = .returned result ∧ result.success = true := by
  unfold deleteLocation
  simp only [hfind]
  split
  · split
    · exact ⟨rfl, _, rfl, rfl⟩
    · exact ⟨rfl, _, rfl, rfl⟩
    · exact ⟨rfl, _, rfl, rfl⟩
    · split
      · exact ⟨rfl, _, rfl, rfl⟩
      · exact ⟨rfl, _, rfl, rfl⟩
  · exact ⟨rfl, _, rfl, rfl⟩

theorem map_json_of_stored (l : List LocationData) (h : ∀ r ∈ l, r.json = r) :
    l.map LocationData.json = l := by
  induction l with
  | nil => rfl
  | cons x xs ih =>
    simp only [List.map_cons]
    rw [h x (List.mem_cons_self _ _), ih (fun r hr => h r (List.mem_cons_of_mem _ hr))]

theorem mem_eraseIdx_mem {α : Type} (l : List α) (i : Nat) (x : α) (h : x ∈ l.eraseIdx i) :
    x ∈ l :=
  (List.eraseIdx_sublist l i).subset h

theorem updateLocation_coordinates_id (locationData existing updatedLocation : LocationData) :
    (updateLocation.coordinates locationData existing updatedLocation).id = updatedLocation.id := by
  unfold updateLocation.coordinates
  split
  · split
    · rfl
    · simp only []
      split
      · rfl
      · split
        · rfl
        · split <;> rfl
  · rfl

theorem updateLocation_found (env : Env) (s : StorageManager) (id : JsVal)
    (locationData : LocationData) (i : Nat)
    (hfind : findIndex (fun loc : LocationData => (prop loc.id).strictEq id)
      (getLocalLocations s) = some i) :
    let u := updatedRecord env s (((getLocalLocations s).get? i).getD {}) locationData
    let written := ((getLocalLocations s).set i u).map LocationData.json
    (getLocalLocations (updateLocation env s id locationData).1 = written ∨
      ∃ j, findIndex (fun loc : LocationData => (prop loc.id).strictEq (prop u.id)) written = some j ∧
        getLocalLocations (updateLocation env s id locationData).1
          = (written.set j { u with source := some (.str "backend") }).map LocationData.json) ∧
      ∃ result, (updateLocation env s id locationData).2 = .returned result ∧
        result.success = true := by
  intro u written
  unfold updateLocation
  simp only [hfind]
  split
  · split
    · exact ⟨Or.inl rfl, _, rfl, rfl⟩
    · exact ⟨Or.inl rfl, _, rfl, rfl⟩
    · exact ⟨Or.inl rfl, _, rfl, rfl⟩
    · split
      · refine ⟨?_, _, rfl, rfl⟩
        simp only [updateLocalLocation]
        split
        · rename_i j hj
          exact Or.inr ⟨j, hj, rfl⟩
        · exact Or.inl rfl
      · exact ⟨Or.inl rfl, _, rfl, rfl⟩
  · exact ⟨Or.inl rfl, _, rfl, rfl⟩

theorem set_eq_self_of_get? {β : Type} :
    ∀ (m : List β) (k : Nat) (b : β), m.get? k = some b → m.set k b = m
  | [], _, _, h => by simp at h
  | x :: xs, 0, b, h => by
    simp at h
    simp [h]
  | x :: xs, k + 1, b, h => by
    simp at h
    simp [set_eq_self_of_get? xs k b (by simpa using h)]

/-- Two stored records whose `id` reads give the same value have the same `id`
key (a stored key never holds `undefined`). -/
theorem id_eq_of_prop_eq (r r' : LocationData) (hr : r.json = r) (hr' : r'.json = r')
    (h : prop r.id = prop r'.id) : r.id = r'.id := by
  have h1 : jsonField r.id = r.id := congrArg LocationData.id hr
  have h2 : jsonField r'.id = r'.id := congrArg LocationData.id hr'
  cases hi : r.id with
  | none =>
    cases hi' : r'.id with
    | none => rfl
    | some w =>
      rw [hi, hi'] at h
      simp only [prop, Option.getD_none, Option.getD_some] at h
      subst h
      rw [hi'] at h2
      simp [jsonField] at h2
  | some v =>
    cases hi' : r'.id with
    | none =>
      rw [hi, hi'] at h
      simp only [prop, Option.getD_none, Option.getD_some] at h
      subst h
      rw [hi] at h1
      simp [jsonField] at h1
    | some w =>
      rw [hi, hi'] at h
      simp only [prop, Option.getD_some] at h
      rw [h]

/-- The id written by an update whose fields carry no other id than the argument
is, once stored, the id of the existing record. -/
theorem jsonField_updated_id (existing locationData : LocationData) (id : JsVal)
    (hex : existing.json = existing) (hmatch : prop existing.id = id)
    (hid : ∀ v, locationData.id = some v → v = id) :
    jsonField (override existing.id locationData.id) = existing.id ∧
      prop (override existing.id locationData.id) = id := by
  have h1 : jsonField existing.id = existing.id := congrArg LocationData.id hex
  cases hl : locationData.id with
  | none => exact ⟨by simpa [override] using h1, by simpa [override] using hmatch⟩
  | some v =>
    have hv := hid v hl
    subst hv
    refine ⟨?_, by simp [override, prop]⟩
    simp only [override]
    cases he : existing.id with
    | none =>
      rw [he] at hmatch
      simp only [prop, Option.getD_none] at hmatch
      rw [← hmatch]
      rfl
    | some w =>
      rw [he] at hmatch h1
      simp only [prop, Option.getD_some] at hmatch
      rw [← hmatch]
      exact h1

theorem ids_map_json (L : List LocationData) :
    (L.map LocationData.json).map (·.id) = L.map (fun r => jsonField r.id) := by
  simp [List.map_map, Function.comp_def, LocationData.json]

theorem get?_map_of_get? {α β : Type} (f : α → β) (l : List α) (k : Nat) (x : α)
    (h : l.get? k = some x) : (l.map f).get? k = some (f x) := by
  rw [List.get?_eq_getElem?] at h ⊢
  rw [List.getElem?_map, h]
  rfl

theorem get?_of_get?_map {α β : Type} (f : α → β) (l : List α) (k : Nat) (b : β)
    (h : (l.map f).get? k = some b) : ∃ x, l.get? k = some x ∧ f x = b := by
  rw [List.get?_eq_getElem?] at h ⊢
  rw [List.getElem?_map] at h
  cases hl : l[k]? with
  | none => simp [hl] at h
  | some x =>
    rw [hl] at h
    exact ⟨x, rfl, by simpa using h⟩

/-- Writing at position `k` a record whose stored id is the id already at `k`
leaves the list of stored ids as it was. -/
theorem ids_set_json (l : List LocationData) (k : Nat) (u : LocationData) (oid : Option JsVal)
    (hl : ∀ r ∈ l, jsonField r.id = r.id)
    (hk : (l.map (·.id)).get? k = some oid) (hu : jsonField u.id = oid) :
    ((l.set k u).map LocationData.json).map (·.id) = l.map (·.id) := by
  rw [ids_map_json, List.map_set]
  have : l.map (fun r => jsonField r.id) = l.map (·.id) :=
    List.map_congr_left (fun r hr => hl r hr)
  rw [this, hu]
  exact set_eq_self_of_get? _ _ _ hk

theorem getLast?_set_findIndex {α : Type} (p : α → Bool) (l : List α) (j : Nat) (u : α)
    (hfind : findIndex p l = some j) :
    (l.set j u).getLast? = l.getLast? ∨
      ((l.set j u).getLast? = some u ∧ ∃ x, l.getLast? = some x ∧ p x = true) := by
  obtain ⟨x, hx, hpx⟩ := findIndex_some p l j hfind
  rw [List.get?_eq_getElem?] at hx
  rw [List.getLast?_eq_getElem?, List.getLast?_eq_getElem?, List.length_set, List.getElem?_set]
  by_cases h : j = l.length - 1
  · subst h
    right
    have hlt : l.length - 1 < l.length := by
      by_contra hcon
      have : l[l.length - 1]? = none := List.getElem?_eq_none (by omega)
      rw [this] at hx
      exact absurd hx (by simp)
    exact ⟨by simp [hlt], x, hx, hpx⟩
  · left
    simp [h]

theorem createLocation_coordinates_id (locationData location result : LocationData)
    (h : createLocation.coordinates locationData location = some result) :
    result.id = location.id := by
  unfold createLocation.coordinates at h
  split at h
  · simp only [Option.some.injEq] at h
    rw [← h]
  · simp only [] at h
    split at h
    · exact absurd h (by simp)
    · split at h
      · simp only [Option.some.injEq] at h
        rw [← h]
        split <;> rfl
      · simp only [Option.some.injEq] at h
        rw [← h]
        split <;> rfl

/-- Replacing the first stored record that has the id of `u` keeps the id of the
record stored last, when that id is a string. -/
theorem lastId_updateLocalLocation (s : StorageManager) (u : LocationData) (g : String)
    (hlast : ∃ r, (getLocalLocations s).getLast? = some r ∧ r.id = some (.str g)) :
    ∃ r, (getLocalLocations (updateLocalLocation s u)).getLast? = some r ∧
      r.id = some (.str g) := by
  obtain ⟨r, hr, hrid⟩ := hlast
  unfold updateLocalLocation
  simp only []
  split
  · rename_i j hj
    rw [getLocalLocations_setLocalLocations, List.getLast?_map]
    rcases getLast?_set_findIndex _ _ j u hj with h | ⟨h, x, hx, hpx⟩
    · rw [h, hr]
      exact ⟨r.json, rfl, by simp [LocationData.json, hrid, jsonField, JsVal.json]⟩
    · rw [h]
      rw [hr] at hx
      simp only [Option.some.injEq] at hx
      subst hx
      have hp := strictEq_eq _ _ hpx
      rw [hrid] at hp
      simp only [prop, Option.getD_some] at hp
      have huid : u.id = some (.str g) := by
        cases hu : u.id with
        | none => rw [hu] at hp; simp at hp
        | some v => rw [hu] at hp; simp at hp; rw [hp]
      exact ⟨u.json, rfl, by simp [LocationData.json, huid, jsonField, JsVal.json]⟩
  · exact ⟨r, hr, hrid⟩

theorem override_none (later : Option JsVal) : override none later = later := by
  cases later <;> rfl

theorem getLocations_offline (env : Env) (s : StorageManager)
    (hdown : s.isBackendAvailable = false) : getLocations env s = (s, getLocalLocations s) := by
  unfold getLocations
  simp [hdown]

/-- With the backend believed out of reach, a create whose coordinate block
settles on `location` appends its JSON image to the record set, keeps the flag
and makes no request. -/
theorem createLocation_offline (env : Env) (s : StorageManager)
    (locationData location : LocationData)
    (hdown : s.isBackendAvailable = false)
    (hblock : createLocation.coordinates locationData (newRecord env s locationData)
      = some location) :
    getLocalLocations (createLocation env s locationData).1
        = (getLocalLocations s ++ [location]).map LocationData.json ∧
      (createLocation env s locationData).1.isBackendAvailable = false := by
  unfold newRecord at hblock
  unfold createLocation
  dsimp only at hblock ⊢
  rw [hblock]
  simp [setLocalLocations, hdown, addToPendingSync, savePendingSync, getLocalLocations]

/-- A create or update whose payload fails the format test of the replay is
pushed to `syncedOperations` with no request and no other effect. -/
theorem syncOperation_invalid (env : Env) (s : StorageManager) (operation : PendingOp)
    (htype : operation.type ≠ .delete)
    (hinvalid : invalidPayloadCoordinates (prop operation.data.coordinates) = true) :
    syncOperation env s operation = (s, true) := by
  have hv : invalidPayloadCoordinates (prop (payloadOf operation.data).coordinates) = true :=
    hinvalid
  unfold syncOperation
  cases ht : operation.type with
  | create => simp only [hv, if_true]
  | update => simp only [hv, if_true]
  | delete => exact absurd ht htype

/-- An operation that is replayed makes exactly its replay request, and is pushed
to `syncedOperations` exactly when the answer removes it. -/
theorem syncOperation_replayed (env : Env) (s : StorageManager) (operation : PendingOp)
    (hreplayed : (operation.type != .delete
      && invalidPayloadCoordinates (prop operation.data.coordinates)) = false) :
    (syncOperation env s operation).2
        = removedBy operation (env.backend s.requests (replayRequest operation)) ∧
      (syncOperation env s operation).1.requests = s.requests ++ [replayRequest operation] := by
  unfold syncOperation
  cases htype : operation.type with
  | create =>
    have hv : invalidPayloadCoordinates (prop (payloadOf operation.data).coordinates) = false := by
      simpa [htype] using hreplayed
    have hreq : replayRequest operation
        = { method := .POST, endpoint := .locations, body := some (payloadOf operation.data) } := by
      simp [replayRequest, htype, OpType.method]
    simp only [hv, fetch, hreq, Bool.false_eq_true, if_false]
    cases env.backend s.requests
        { method := .POST, endpoint := .locations, body := some (payloadOf operation.data) } with
    | rejected => simp [removedBy]
    | answered ok json text =>
      cases ok with
      | false => simp [removedBy, htype]
      | true =>
        cases json with
        | none => simp [removedBy]
        | some result =>
          cases hs : result.success with
          | false => simp [removedBy, hs]
          | true =>
            cases hd : result.data.id with
            | none => simp [removedBy, hs, hd, htype]
            | some v => simp [removedBy, hs, hd, htype]
  | update =>
    have hv : invalidPayloadCoordinates (prop (payloadOf operation.data).coordinates) = false := by
      simpa [htype] using hreplayed
    have hreq : replayRequest operation
        = { method := .PUT, endpoint := .location (prop operation.data.id),
            body := some (payloadOf operation.data) } := by
      simp [replayRequest, htype, OpType.method]
    simp only [hv, fetch, hreq, Bool.false_eq_true, if_false]
    cases env.backend s.requests
        { method := .PUT, endpoint := .location (prop operation.data.id),
          body := some (payloadOf operation.data) } with
    | rejected => simp [removedBy]
    | answered ok json text =>
      cases ok with
      | false => simp [removedBy, htype]
      | true =>
        cases json with
        | none => simp [removedBy]
        | some result =>
          cases hs : result.success with
          | false => simp [removedBy, hs]
          | true => simp [removedBy, hs, htype]
  | delete =>
    have hreq : replayRequest operation
        = { method := .DELETE, endpoint := .location (prop operation.data.id) } := by
      simp [replayRequest, htype, OpType.method]
    simp only [fetch, hreq]
    cases env.backend s.requests
        { method := .DELETE, endpoint := .location (prop operation.data.id) } with
    | rejected => simp [removedBy]
    | answered ok json text =>
      cases ok with
      | false => simp [removedBy, htype]
      | true =>
        cases json with
        | none => simp [removedBy]
        | some result => simp [removedBy, htype]

theorem syncLoop_remaining (env : Env) :
    ∀ (ops : List PendingOp) (s : StorageManager),
      (syncLoop env s ops).2 = remainingAfterReplay env s.requests ops
  | [], s => rfl
  | op :: rest, s => by
    cases hcheck : (op.type != .delete
        && invalidPayloadCoordinates (prop op.data.coordinates)) with
    | true =>
      have h := hcheck
      simp only [Bool.and_eq_true, bne_iff_ne, ne_eq] at h
      have hstep := syncOperation_invalid env s op h.1 h.2
      simp only [syncLoop, remainingAfterReplay, hcheck, hstep, if_true]
      exact syncLoop_remaining env rest s
    | false =>
      obtain ⟨hpushed, hrequests⟩ := syncOperation_replayed env s op hcheck
      have hrest := syncLoop_remaining env rest (syncOperation env s op).1
      rw [hrequests] at hrest
      simp only [syncLoop, remainingAfterReplay, hcheck, hpushed, hrest, Bool.false_eq_true,
        if_false]

/-! ## Further lemmas: the replay loop, JSON images, export and import -/

theorem findIndex_first {α : Type} (p : α → Bool) :
    ∀ (l : List α) (i : Nat), findIndex p l = some i →
      ∀ k x, k < i → l.get? k = some x → p x = false
  | [], i, h => by simp [findIndex] at h
  | y :: ys, i, h => by
    by_cases hy : p y = true
    · simp [findIndex, hy] at h
      subst h
      intro k x hk
      exact absurd hk (Nat.not_lt_zero k)
    · simp [findIndex, hy] at h
      obtain ⟨j, hj, rfl⟩ := h
      intro k x hk hx
      cases k with
      | zero =>
        simp at hx
        subst hx
        simpa using hy
      | succ k =>
        exact findIndex_first p ys j hj k x (by omega) (by simpa using hx)

theorem syncLoop_append (env : Env) :
    ∀ (l₁ l₂ : List PendingOp) (s : StorageManager),
      syncLoop env s (l₁ ++ l₂)
        = ((syncLoop env (syncLoop env s l₁).1 l₂).1,
            (syncLoop env s l₁).2 ++ (syncLoop env (syncLoop env s l₁).1 l₂).2)
  | [], l₂, s => by simp [syncLoop]
  | op :: l₁, l₂, s => by
    have ih := syncLoop_append env l₁ l₂ (syncOperation env s op).1
    simp only [List.cons_append, syncLoop, List.append_eq]
    rw [ih]
    cases (syncOperation env s op).2 <;> simp

/-- A create or update that is replayed and answered with a status that is not
ok leaves the state as the request left it, and is pushed to `syncedOperations`
exactly when the text contains `Coordinates are required`. -/
theorem syncOperation_not_ok (env : Env) (s : StorageManager) (operation : PendingOp)
    (json : Option ApiResult) (text : String) (htype : operation.type ≠ .delete)
    (hformat : invalidPayloadCoordinates (prop operation.data.coordinates) = false)
    (hanswer : env.backend s.requests (replayRequest operation) = .answered false json text) :
    syncOperation env s operation
      = ((fetch env s (replayRequest operation)).1, includes text "Coordinates are required") := by
  have hv : invalidPayloadCoordinates (prop (payloadOf operation.data).coordinates) = false :=
    hformat
  unfold syncOperation
  cases ht : operation.type with
  | create =>
    have hreq : replayRequest operation
        = { method := .POST, endpoint := .locations, body := some (payloadOf operation.data) } := by
      simp [replayRequest, ht, OpType.method]
    rw [hreq] at hanswer ⊢
    simp only [hv, fetch, hanswer, Bool.false_eq_true, if_false]
  | update =>
    have hreq : replayRequest operation
        = { method := .PUT, endpoint := .location (prop operation.data.id),
            body := some (payloadOf operation.data) } := by
      simp [replayRequest, ht, OpType.method]
    rw [hreq] at hanswer ⊢
    simp only [hv, fetch, hanswer, Bool.false_eq_true, if_false]
  | delete => exact absurd ht htype

theorem syncLoop_requests (env : Env) :
    ∀ (ops : List PendingOp) (s : StorageManager),
      (syncLoop env s ops).1.requests
        = s.requests ++ (ops.filter isReplayed).map replayRequest
  | [], s => by simp [syncLoop]
  | op :: rest, s => by
    cases hcheck : (op.type != .delete
        && invalidPayloadCoordinates (prop op.data.coordinates)) with
    | true =>
      have h := hcheck
      simp only [Bool.and_eq_true, bne_iff_ne, ne_eq] at h
      have hstep := syncOperation_invalid env s op h.1 h.2
      have ih := syncLoop_requests env rest s
      simp only [syncLoop, hstep, List.filter_cons, isReplayed, hcheck, Bool.not_true,
        Bool.false_eq_true, if_false]
      exact ih
    | false =>
      obtain ⟨-, hrequests⟩ := syncOperation_replayed env s op hcheck
      have ih := syncLoop_requests env rest (syncOperation env s op).1
      rw [hrequests] at ih
      simp only [syncLoop, List.filter_cons, isReplayed, hcheck, Bool.not_false, if_true,
        List.map_cons, ih, List.append_assoc, List.singleton_append]

theorem syncLoop_sublist (env : Env) :
    ∀ (ops : List PendingOp) (s : StorageManager), List.Sublist (syncLoop env s ops).2 ops
  | [], s => by simp [syncLoop]
  | op :: rest, s => by
    have ih := syncLoop_sublist env rest (syncOperation env s op).1
    simp only [syncLoop]
    split
    · exact ih.cons op
    · exact ih.cons₂ op

theorem queue_updateLocalLocation (s : StorageManager) (u : LocationData) :
    (updateLocalLocation s u).pendingSync = s.pendingSync ∧
      (updateLocalLocation s u).localStorage.pendingSync = s.localStorage.pendingSync := by
  unfold updateLocalLocation
  simp only []
  split <;> exact ⟨rfl, rfl⟩

/-- Every operation either leaves the queue and its durable key untouched, or
ends with the durable key holding the JSON image of the queue. -/
theorem queue_untouched_or_saved (env : Env) (s : StorageManager) (operation : Operation) :
    ((operation.run env s).pendingSync = s.pendingSync ∧
        (operation.run env s).localStorage.pendingSync = s.localStorage.pendingSync) ∨
      loadPendingSync (operation.run env s)
        = (operation.run env s).pendingSync.map PendingOp.json := by
  cases operation with
  | getLocations =>
    left
    simp only [Operation.run]
    unfold getLocations
    dsimp only
    split
    · split
      · exact ⟨rfl, rfl⟩
      · exact ⟨rfl, rfl⟩
      · exact ⟨rfl, rfl⟩
      · split
        · split <;> exact ⟨rfl, rfl⟩
        · exact ⟨rfl, rfl⟩
    · exact ⟨rfl, rfl⟩
  | mutate call =>
    cases call with
    | createLocation locationData =>
      simp only [Operation.run, Call.run]
      unfold createLocation
      dsimp only
      split
      · exact Or.inl ⟨rfl, rfl⟩
      · split
        · split
          · exact Or.inr rfl
          · exact Or.inl ⟨rfl, rfl⟩
          · exact Or.inr rfl
          · split
            · split
              · exact Or.inr rfl
              · exact Or.inl (queue_updateLocalLocation _ _)
            · exact Or.inl ⟨rfl, rfl⟩
        · exact Or.inr rfl
    | updateLocation id locationData =>
      simp only [Operation.run, Call.run]
      unfold updateLocation
      dsimp only
      split
      · exact Or.inl ⟨rfl, rfl⟩
      · split
        · split
          · exact Or.inr rfl
          · exact Or.inl ⟨rfl, rfl⟩
          · exact Or.inr rfl
          · split
            · exact Or.inl (queue_updateLocalLocation _ _)
            · exact Or.inl ⟨rfl, rfl⟩
        · exact Or.inr rfl
    | deleteLocation id =>
      simp only [Operation.run, Call.run]
      unfold deleteLocation
      dsimp only
      split
      · exact Or.inl ⟨rfl, rfl⟩
      · split
        · split
          · exact Or.inr rfl
          · exact Or.inl ⟨rfl, rfl⟩
          · exact Or.inr rfl
          · split
            · exact Or.inl ⟨rfl, rfl⟩
            · exact Or.inl ⟨rfl, rfl⟩
        · exact Or.inr rfl
  | syncPendingOperations =>
    simp only [Operation.run]
    unfold syncPendingOperations
    split
    · exact Or.inl ⟨rfl, rfl⟩
    · exact Or.inr rfl
  | clearLocalData =>
    simp only [Operation.run]
    exact Or.inr rfl

theorem map_json_of_queued (l : List PendingOp) (h : ∀ o ∈ l, o.json = o) :
    l.map PendingOp.json = l := by
  induction l with
  | nil => rfl
  | cons o os ih =>
    simp only [List.map_cons]
    rw [h o (List.mem_cons_self _ _), ih (fun x hx => h x (List.mem_cons_of_mem _ hx))]

theorem jsonField_override (a b : Option JsVal) (ha : jsonField a = a) (hb : jsonField b = b) :
    jsonField (override a b) = override a b := by
  cases b with
  | none => exact ha
  | some v => exact hb

theorem findIndex_set {α : Type} (p : α → Bool) (u : α) (hu : p u = true) :
    ∀ (l : List α) (i : Nat), findIndex p l = some i → findIndex p (l.set i u) = some i
  | [], i, h => by simp [findIndex] at h
  | y :: ys, i, h => by
    by_cases hy : p y = true
    · simp [findIndex, hy] at h
      subst h
      simp [findIndex, hu]
    · simp [findIndex, hy] at h
      obtain ⟨j, hj, rfl⟩ := h
      simp [findIndex, hy, findIndex_set p u hu ys j hj]

/-- The outcome of an update that finds its record at position `i`: either it is
not synced and the record set is the old one with the updated record written at
`i`, or it is synced and the updated record, marked with the source `backend`,
was then written over the first record that has its id. -/
theorem updateLocation_found_synced (env : Env) (s : StorageManager) (id : JsVal)
    (locationData : LocationData) (i : Nat)
    (hfind : findIndex (fun loc : LocationData => (prop loc.id).strictEq id)
      (getLocalLocations s) = some i) :
    let u := updatedRecord env s (((getLocalLocations s).get? i).getD {}) locationData
    let written := ((getLocalLocations s).set i u).map LocationData.json
    ((updateLocation env s id locationData).2
          = .returned { success := true, data := some u, synced := some false } ∧
        getLocalLocations (updateLocation env s id locationData).1 = written) ∨
      ((updateLocation env s id locationData).2
          = .returned { success := true,
                        data := some { u with source := some (.str "backend") },
                        synced := some true } ∧
        ∃ t, getLocalLocations t = written ∧
          getLocalLocations (updateLocation env s id locationData).1
            = getLocalLocations
                (updateLocalLocation t { u with source := some (.str "backend") })) := by
  intro u written
  unfold updateLocation
  simp only [hfind]
  split
  · split
    · exact Or.inl ⟨rfl, rfl⟩
    · exact Or.inl ⟨rfl, rfl⟩
    · exact Or.inl ⟨rfl, rfl⟩
    · split
      · refine Or.inr ⟨rfl, _, ?_, rfl⟩
        rfl
      · exact Or.inl ⟨rfl, rfl⟩
  · exact Or.inl ⟨rfl, rfl⟩

/-- The coordinate block of `updateLocation` changes nothing when the fields
carry no coordinates or a pair of numbers in range. -/
theorem updateLocation_coordinates_kept (locationData existing : LocationData)
    (updatedAt : Option JsVal)
    (hcoordinates : locationData.coordinates = none ∨
      ∃ lng lat : ℚ, locationData.coordinates = some (point (.num (.fin lng)) (.num (.fin lat))) ∧
        (-180 ≤ lng ∧ lng ≤ 180) ∧ (-90 ≤ lat ∧ lat ≤ 90)) :
    updateLocation.coordinates locationData existing
        { LocationData.spread existing locationData with updated_at := updatedAt }
      = { LocationData.spread existing locationData with updated_at := updatedAt } := by
  rcases hcoordinates with hnone | ⟨lng, lat, hc, hlng, hlat⟩
  · simp [updateLocation.coordinates, hnone, prop, JsVal.truthy]
  · have h1 : ¬ lng < -180 := not_lt.mpr hlng.1
    have h2 : ¬ 180 < lng := not_lt.mpr hlng.2
    have h3 : ¬ lat < -90 := not_lt.mpr hlat.1
    have h4 : ¬ 90 < lat := not_lt.mpr hlat.2
    simp [updateLocation.coordinates, hc, prop, point, JsVal.truthy, JsVal.getProp, List.lookup,
      invalidCoordinateFormat, JsVal.destructure2, nthOrUndefined, invalidCoordinateValues,
      JsNum.isNaN, JsNum.ltConst, JsNum.gtConst, h1, h2, h3, h4, LocationData.spread, override]

theorem getLocalLocations_updateLocalLocation_found (t : StorageManager) (u : LocationData)
    (j : Nat)
    (h : findIndex (fun loc : LocationData => (prop loc.id).strictEq (prop u.id))
      (getLocalLocations t) = some j) :
    getLocalLocations (updateLocalLocation t u)
      = ((getLocalLocations t).set j u).map LocationData.json := by
  unfold updateLocalLocation
  simp only [h]
  rfl

theorem json_ne_undefined (v : JsVal) (h : v ≠ .undefined) : v.json ≠ .undefined := by
  cases v with
  | undefined => exact absurd rfl h
  | null => simp [JsVal.json]
  | bool b => simp [JsVal.json]
  | num x => cases x <;> simp [JsVal.json]
  | str s => simp [JsVal.json]
  | arr xs => simp [JsVal.json]
  | obj ps => simp [JsVal.json]

mutual
theorem json_json : ∀ v : JsVal, v.json.json = v.json
  | .undefined => rfl
  | .null => rfl
  | .bool _ => rfl
  | .num .nan => rfl
  | .num .posInf => rfl
  | .num .negInf => rfl
  | .num (.fin _) => rfl
  | .str _ => rfl
  | .arr xs => by
    simp only [JsVal.json]
    rw [jsonElements_jsonElements xs]
  | .obj ps => by
    simp only [JsVal.json]
    rw [jsonProperties_jsonProperties ps]
theorem jsonElements_jsonElements : ∀ xs : List JsVal,
    jsonElements (jsonElements xs) = jsonElements xs
  | [] => rfl
  | x :: xs => by
    have ih := jsonElements_jsonElements xs
    cases x with
    | undefined => simp only [jsonElements, ih, JsVal.json]
    | null => simp only [jsonElements, ih, JsVal.json]
    | bool b => simp only [jsonElements, ih, JsVal.json]
    | num n => cases n <;> simp only [jsonElements, ih, JsVal.json]
    | str s => simp only [jsonElements, ih, JsVal.json]
    | arr ys =>
      have h := json_json (.arr ys)
      simp only [JsVal.json] at h
      simp only [jsonElements, ih, JsVal.json, h]
    | obj ps =>
      have h := json_json (.obj ps)
      simp only [JsVal.json] at h
      simp only [jsonElements, ih, JsVal.json, h]
theorem jsonProperties_jsonProperties : ∀ ps : List (String × JsVal),
    jsonProperties (jsonProperties ps) = jsonProperties ps
  | [] => rfl
  | (key, v) :: ps => by
    have ih := jsonProperties_jsonProperties ps
    cases v with
    | undefined => simp only [jsonProperties, ih]
    | null => simp only [jsonProperties, ih, JsVal.json]
    | bool b => simp only [jsonProperties, ih, JsVal.json]
    | num n => cases n <;> simp only [jsonProperties, ih, JsVal.json]
    | str s => simp only [jsonProperties, ih, JsVal.json]
    | arr ys =>
      have h := json_json (.arr ys)
      simp only [JsVal.json] at h
      simp only [jsonProperties, ih, JsVal.json, h]
    | obj qs =>
      have h := json_json (.obj qs)
      simp only [JsVal.json] at h
      simp only [jsonProperties, ih, JsVal.json, h]
end

theorem jsonField_jsonField (f : Option JsVal) : jsonField (jsonField f) = jsonField f := by
  cases f with
  | none => rfl
  | some v =>
    by_cases hv : v = .undefined
    · subst hv
      rfl
    · have h1 : jsonField (some v) = some v.json := by
        cases v <;> first | rfl | exact absurd rfl hv
      have h2 : jsonField (some v.json) = some v.json.json := by
        have hne := json_ne_undefined v hv
        generalize v.json = w at hne
        cases w <;> first | rfl | exact absurd rfl hne
      rw [h1, h2, json_json]

theorem record_json_idempotent (r : LocationData) : r.json.json = r.json := by
  simp only [LocationData.json, jsonField_jsonField]

theorem getLocalLocations_updateLocalLocation (t : StorageManager) (d : LocationData) :
    getLocalLocations (updateLocalLocation t d) = writeLocal (getLocalLocations t) d := by
  unfold updateLocalLocation writeLocal
  simp only []
  split <;> rfl

theorem syncOperation_locations (env : Env) (t : StorageManager) (operation : PendingOp) :
    getLocalLocations (syncOperation env t operation).1
      = (match replayWrites env t.requests operation with
          | some d => writeLocal (getLocalLocations t) d
          | none => getLocalLocations t) := by
  cases hcheck : (operation.type != .delete
      && invalidPayloadCoordinates (prop operation.data.coordinates)) with
  | true =>
    have h := hcheck
    simp only [Bool.and_eq_true, bne_iff_ne, ne_eq] at h
    rw [syncOperation_invalid env t operation h.1 h.2]
    simp [replayWrites, isReplayed, hcheck]
  | false =>
    have hrep : isReplayed operation = true := by simp [isReplayed, hcheck]
    unfold syncOperation replayWrites
    simp only [hrep, if_true]
    cases htype : operation.type with
    | create =>
      have hv : invalidPayloadCoordinates (prop (payloadOf operation.data).coordinates)
          = false := by
        simpa [htype] using hcheck
      have hreq : replayRequest operation
          = { method := .POST, endpoint := .locations,
              body := some (payloadOf operation.data) } := by
        simp [replayRequest, htype, OpType.method]
      simp only [hv, fetch, hreq, Bool.false_eq_true, if_false]
      cases env.backend t.requests
          { method := .POST, endpoint := .locations, body := some (payloadOf operation.data) } with
      | rejected => rfl
      | answered ok json text =>
        cases ok with
        | false => rfl
        | true =>
          cases json with
          | none => rfl
          | some result =>
            cases hs : result.success with
            | false => simp [hs]; rfl
            | true =>
              cases hd : result.data.id with
              | none => simp [hs, hd]; rfl
              | some v =>
                simp only [hs, hd, if_true]
                rw [getLocalLocations_updateLocalLocation]
                rfl
    | update =>
      have hv : invalidPayloadCoordinates (prop (payloadOf operation.data).coordinates)
          = false := by
        simpa [htype] using hcheck
      have hreq : replayRequest operation
          = { method := .PUT, endpoint := .location (prop operation.data.id),
              body := some (payloadOf operation.data) } := by
        simp [replayRequest, htype, OpType.method]
      simp only [hv, fetch, hreq, Bool.false_eq_true, if_false]
      cases env.backend t.requests
          { method := .PUT, endpoint := .location (prop operation.data.id),
            body := some (payloadOf operation.data) } with
      | rejected => rfl
      | answered ok json text =>
        cases ok with
        | false => rfl
        | true =>
          cases json with
          | none => rfl
          | some result =>
            cases hs : result.success with
            | false => simp [hs]; rfl
            | true =>
              simp only [hs, if_true]
              rw [getLocalLocations_updateLocalLocation]
              rfl
    | delete =>
      simp only [fetch]
      cases env.backend t.requests
          { method := .DELETE, endpoint := .location (prop operation.data.id) } with
      | rejected => simp; rfl
      | answered ok json text =>
        cases ok with
        | false => simp; rfl
        | true =>
          cases json with
          | none => simp; rfl
          | some result => simp; rfl

/-- The stored image of an id that is strictly equal to a stored id reads as the
same value. -/
theorem prop_jsonField_id (c d : LocationData) (hc : c.json = c)
    (h : prop c.id = prop d.id) : prop (jsonField d.id) = prop d.id := by
  have h1 : jsonField c.id = c.id := congrArg LocationData.id hc
  cases hd : d.id with
  | none => rfl
  | some w =>
    rw [hd] at h
    simp only [prop, Option.getD_some] at h
    cases hci : c.id with
    | none =>
      rw [hci] at h
      simp only [Option.getD_none] at h
      subst h
      rfl
    | some w' =>
      rw [hci] at h h1
      simp only [Option.getD_some] at h
      subst h
      rw [h1]

theorem replayInvariant_writeLocal (env : Env) (queue : List PendingOp)
    (initial current : List LocationData) (operation : PendingOp) (history : List Request)
    (d : LocationData) (hop : operation ∈ queue)
    (hd : replayWrites env history operation = some d)
    (hinv : replayInvariant env queue initial current) :
    replayInvariant env queue initial (writeLocal current d) := by
  unfold writeLocal
  cases hfind : findIndex (fun loc : LocationData => (prop loc.id).strictEq (prop d.id))
      current with
  | none => exact hinv
  | some j =>
    obtain ⟨c, hc, hpc⟩ := findIndex_some _ _ _ hfind
    obtain ⟨hcjson, r, hr, hcid, -⟩ := hinv.2 j c hc
    have hcd : prop c.id = prop d.id := strictEq_eq _ _ hpc
    have hcurrent : current.map LocationData.json = current :=
      map_json_of_stored _ (fun x hx => by
        obtain ⟨k, hk⟩ := List.get?_of_mem hx
        exact (hinv.2 k x hk).1)
    simp only []
    rw [List.map_set, hcurrent]
    refine ⟨by rw [List.length_set]; exact hinv.1, ?_⟩
    intro k r' hk
    rw [List.get?_eq_getElem?, List.getElem?_set] at hk
    by_cases hjk : j = k
    · subst hjk
      have hlt : j < current.length := by
        rw [List.get?_eq_getElem?] at hc
        exact (List.getElem?_eq_some_iff.mp hc).1
      simp only [hlt, if_true] at hk
      simp only [Option.some.injEq] at hk
      subst hk
      refine ⟨record_json_idempotent d, r, hr, ?_, Or.inr ⟨operation, hop, history, d, hd, ?_, rfl⟩⟩
      · rw [← hcid]
        show prop (jsonField d.id) = prop c.id
        rw [prop_jsonField_id c d hcjson hcd, hcd]
      · rw [← hcid]
        exact hpc
    · simp only [hjk, if_false] at hk
      exact hinv.2 k r' (by rw [List.get?_eq_getElem?]; exact hk)

theorem replayInvariant_syncLoop (env : Env) (queue : List PendingOp)
    (initial : List LocationData) :
    ∀ (ops : List PendingOp) (t : StorageManager), (∀ op ∈ ops, op ∈ queue) →
      replayInvariant env queue initial (getLocalLocations t) →
      replayInvariant env queue initial (getLocalLocations (syncLoop env t ops).1)
  | [], t, _, hinv => hinv
  | op :: rest, t, hsub, hinv => by
    have hstep : replayInvariant env queue initial
        (getLocalLocations (syncOperation env t op).1) := by
      rw [syncOperation_locations]
      cases hd : replayWrites env t.requests op with
      | none => exact hinv
      | some d =>
        exact replayInvariant_writeLocal env queue initial _ op t.requests d
          (hsub op (List.mem_cons_self _ _)) hd hinv
    exact replayInvariant_syncLoop env queue initial rest (syncOperation env t op).1
      (fun o ho => hsub o (List.mem_cons_of_mem _ ho)) hstep

theorem jsonField_some_prop (x : Option JsVal) (h : jsonField x = x) :
    jsonField (some (prop x)) = x := by
  cases x with
  | none => rfl
  | some v => cases v <;> exact h

theorem some_prop_of_truthy (x : Option JsVal) (h : (prop x).truthy = true) :
    some (prop x) = x := by
  cases x with
  | none => simp [prop, JsVal.truthy] at h
  | some v => rfl

theorem jsonField_orText (x : Option JsVal) (text : String) (h : jsonField x = x) :
    jsonField (some (orText (prop x) text)) = some (orText (prop x) text) := by
  unfold orText
  split
  · rename_i ht
    rw [some_prop_of_truthy x ht]
    rw [h]
  · rfl

theorem orText_of_truthy (x : Option JsVal) (text : String) (h : (prop x).truthy = true) :
    some (orText (prop x) text) = x := by
  unfold orText
  rw [if_pos h]
  exact some_prop_of_truthy x h

/-- The object that `importLocations` builds from the exported feature of a
record that is its own JSON image. -/
theorem importData_exported (r : LocationData) (hjson : r.json = r) :
    importData (exportFeature r).json = some
      { name := some (orText (prop r.name) "Unnamed Location")
        category := some (orText (prop r.category) "poi")
        description := some (orText (prop r.description) "")
        address := some (orText (prop r.address) "")
        coordinates := some (prop (jsonField (some (prop r.coordinates)))) } := by
  have hn : jsonField r.name = r.name := congrArg (·.name) hjson
  have hc : jsonField r.category = r.category := congrArg (·.category) hjson
  have hd : jsonField r.description = r.description := congrArg (·.description) hjson
  have ha : jsonField r.address = r.address := congrArg (·.address) hjson
  simp only [importData, exportFeature, Feature.json, Option.map_some', LocationData.json,
    jsonField_some_prop _ hn, jsonField_some_prop _ hc, jsonField_some_prop _ hd,
    jsonField_some_prop _ ha]

theorem createLocation_offline_result (env : Env) (s : StorageManager)
    (locationData location : LocationData)
    (hdown : s.isBackendAvailable = false)
    (hblock : createLocation.coordinates locationData (newRecord env s locationData)
      = some location) :
    (createLocation env s locationData).2
      = .returned { success := true, data := some location, synced := some false } := by
  unfold newRecord at hblock
  unfold createLocation
  dsimp only at hblock ⊢
  rw [hblock]
  simp [setLocalLocations, hdown]

/-- What the import loop does, offline, with the exported features of records
that have a truthy name and category and a pair of numbers in range. -/
theorem importLoop_exported (env : Env) :
    ∀ (L : List LocationData) (s : StorageManager) (report : ImportReport),
      s.isBackendAvailable = false → storedAsJson s →
      (∀ r ∈ L, r.json = r ∧ (prop r.name).truthy = true ∧ (prop r.category).truthy = true ∧
        ∃ lng lat : ℚ, r.coordinates = some (point (.num (.fin lng)) (.num (.fin lat))) ∧
          (-180 ≤ lng ∧ lng ≤ 180) ∧ (-90 ≤ lat ∧ lat ≤ 90)) →
      (importLoop env s report (exportedFile L)).1.isBackendAvailable = false ∧
      (importLoop env s report (exportedFile L)).2
        = { importedCount := report.importedCount + L.length, errorCount := report.errorCount } ∧
      ∃ created, getLocalLocations (importLoop env s report (exportedFile L)).1
          = getLocalLocations s ++ created ∧
        created.map LocationData.formFields = L.map fun r =>
          (r.name, r.category, some (orText (prop r.description) ""),
            some (orText (prop r.address) ""), r.coordinates)
  | [], s, report, hdown, _, _ => ⟨hdown, rfl, [], by simp [exportedFile, exportFeatures, importLoop], rfl⟩
  | r :: L, s, report, hdown, hstored, hvalid => by
      obtain ⟨hjson, hname, hcat, lng, lat, hcoord, hlng, hlat⟩ := hvalid r (List.mem_cons_self _ _)
      have hd : jsonField r.description = r.description := congrArg (·.description) hjson
      have ha : jsonField r.address = r.address := congrArg (·.address) hjson
      have hdata := importData_exported r hjson
      rw [hcoord, show prop (some (point (.num (.fin lng)) (.num (.fin lat))))
        = point (.num (.fin lng)) (.num (.fin lat)) from rfl, jsonField_point] at hdata
      rw [orText_of_truthy _ _ hname, orText_of_truthy _ _ hcat] at hdata
      obtain ⟨ld, hld⟩ : ∃ ld : LocationData, ld =
          { name := r.name, category := r.category,
            description := some (orText (prop r.description) ""),
            address := some (orText (prop r.address) ""),
            coordinates := some (prop (some (point (.num (.fin lng)) (.num (.fin lat))))) } :=
        ⟨_, rfl⟩
      rw [← hld] at hdata
      have hblock := createLocation_coordinates_valid ld (newRecord env s ld) lng lat
        (by rw [hld]; rfl) hlng hlat
      obtain ⟨hlist, hflag⟩ := createLocation_offline env s _ _ hdown hblock
      have hresult := createLocation_offline_result env s _ _ hdown hblock
      have hold : (getLocalLocations s).map LocationData.json = getLocalLocations s :=
        map_json_of_stored _ hstored
      have hstored' : storedAsJson (createLocation env s ld).1 := by
        intro x hx
        rw [hlist] at hx
        obtain ⟨y, _, rfl⟩ := List.mem_map.mp hx
        exact record_json_idempotent y
      obtain ⟨hflag', hreport, created, hcreated, hfields⟩ :=
        importLoop_exported env L _ { report with importedCount := report.importedCount + 1 }
          hflag hstored' (fun x hx => hvalid x (List.mem_cons_of_mem _ hx))
      have hstep : importLoop env s report (exportedFile (r :: L))
          = importLoop env (createLocation env s ld).1
              { report with importedCount := report.importedCount + 1 } (exportedFile L) := by
        simp only [exportedFile, exportFeatures, List.map_cons, importLoop, hdata, hresult]
        rfl
      rw [hstep]
      refine ⟨hflag', ?_, ?_⟩
      · rw [hreport]
        simp [Nat.add_assoc, Nat.add_comm 1]
      · refine ⟨LocationData.json { newRecord env s ld with
            coordinates := some (point (.num (.fin lng)) (.num (.fin lat))) } :: created, ?_, ?_⟩
        · rw [hcreated, hlist, List.map_append, hold]
          simp
        · rw [List.map_cons, List.map_cons, hfields]
          congr 1
          simp only [LocationData.formFields, LocationData.json, newRecord, LocationData.spread,
            override, hld]
          have hn : jsonField r.name = r.name := congrArg (·.name) hjson
          have hc : jsonField r.category = r.category := congrArg (·.category) hjson
          rw [← some_prop_of_truthy _ hname] at hn ⊢
          rw [← some_prop_of_truthy _ hcat] at hc ⊢
          simp only [hn, hc, jsonField_orText _ _ hd, jsonField_orText _ _ ha, hcoord]
          simp [prop, jsonField_point]

/-! ## The claims -/

/-- C1. For every `locationData` whose coordinates are
`{ type: 'Point', coordinates: [lng, lat] }` with `-180 ≤ lng ≤ 180` and
`-90 ≤ lat ≤ 90`, every store state and every backend behaviour, `createLocation`
returns, and the record stored last in the local record set has exactly the
coordinates `{ type: 'Point', coordinates: [lng, lat] }`. -/
theorem createLocation_stores_valid_coordinates (env : Env) (s : StorageManager)
    (locationData : LocationData) (lng lat : ℚ)
    (hc : locationData.coordinates = some (point (.num (.fin lng)) (.num (.fin lat))))
    (hlng : -180 ≤ lng ∧ lng ≤ 180) (hlat : -90 ≤ lat ∧ lat ≤ 90) :
    (∃ result, (createLocation env s locationData).2 = .returned result) ∧
      lastCoordinates (createLocation env s locationData).1
        = some (some (point (.num (.fin lng)) (.num (.fin lat)))) :=
  createLocation_lastCoordinates env s locationData _
    (fun location => createLocation_coordinates_valid locationData location lng lat hc hlng hlat)
    (jsonField_point lng lat)

/-- Witness of C1: the point of the example scenario, `[106.8275, -6.1754]`,
created on an empty store while the backend is out of reach. -/
theorem createLocation_stores_valid_coordinates_witness :
    (-180 ≤ (1068275 / 10000 : ℚ) ∧ (1068275 / 10000 : ℚ) ≤ 180) ∧
      (-90 ≤ (-61754 / 10000 : ℚ) ∧ (-61754 / 10000 : ℚ) ≤ 90) ∧
      lastCoordinates (createLocation offlineEnv (emptyStore true) monasData).1
        = some (some monas) :=
  ⟨by norm_num, by norm_num,
    (createLocation_stores_valid_coordinates offlineEnv (emptyStore true) monasData
      (1068275 / 10000) (-61754 / 10000) rfl (by norm_num) (by norm_num)).2⟩

/-- C2, evaluated on an inner array of three elements: whatever the other fields,
the store state and the backend, `createLocation` given the coordinates
`{ type: 'Point', coordinates: [10, 20, 30] }` stores a record with the
coordinates `[10, 20]`, which is not the fallback point. -/
theorem createLocation_three_elements_not_fallback (env : Env) (s : StorageManager)
    (locationData : LocationData) :
    lastCoordinates
        (createLocation env s { locationData with coordinates := some threeElementPoint }).1
        = some (some (point (.num (.fin 10)) (.num (.fin 20))))
      ∧ point (.num (.fin 10)) (.num (.fin 20)) ≠ fallbackPoint := by
  refine ⟨(createLocation_lastCoordinates env s _ _ ?_ (jsonField_point 10 20)).2, ?_⟩
  · intro location
    simp [createLocation.coordinates, threeElementPoint, prop, JsVal.truthy, JsVal.getProp,
      List.lookup, invalidCoordinateFormat, JsVal.destructure2, nthOrUndefined,
      invalidCoordinateValues, JsNum.isNaN, JsNum.ltConst, JsNum.gtConst]
    norm_num
  · simp [point, fallbackPoint]
    norm_num

/-- C3, evaluated on `coordinates: null`: the stored record has the coordinates
of the example scenario before the call; `updateLocation` with the fields
`{ name: "Tugu", coordinates: null }` succeeds, and the stored record then has
`null` as its coordinates. -/
theorem updateLocation_null_coordinates_overwrite :
    (getLocalLocations storeWithMonas).map (·.coordinates) = [some monas] ∧
      ∃ result,
        (updateLocation offlineEnv storeWithMonas (.str "a")
          { name := some (.str "Tugu"), coordinates := some .null }).2 = .returned result ∧
        result.success = true ∧
        (getLocalLocations (updateLocation offlineEnv storeWithMonas (.str "a")
          { name := some (.str "Tugu"), coordinates := some .null }).1).map (·.coordinates)
          = [some .null] :=
  ⟨rfl, _, rfl, rfl, rfl⟩

/-- C4, evaluated on a truthy inner value that is not iterable: for every store
state and backend, `createLocation` given the coordinates
`{ type: 'Point', coordinates: 5 }` throws, and the local record list is what
it was. -/
theorem createLocation_throws_on_number (env : Env) (s : StorageManager) :
    (createLocation env s { coordinates := some numberInsidePoint }).2 = .threw
      ∧ getLocalLocations (createLocation env s { coordinates := some numberInsidePoint }).1
          = getLocalLocations s := by
  constructor <;>
  simp [createLocation, createLocation.coordinates, numberInsidePoint, prop, JsVal.truthy,
    JsVal.getProp, List.lookup, invalidCoordinateFormat, JsVal.destructure2, getLocalLocations]

/-- C5, evaluated on an empty store believed online whose backend accepts the
create and answers the id `srv-1`: `createLocation` returns `synced = true`, and
the local record set holds one record, still with the locally generated id
`local-0` and the source `local`. -/
theorem createLocation_synced_keeps_local_id :
    ∃ result,
      (createLocation acceptingEnv (emptyStore true) monasData).2 = .returned result ∧
      result.synced = some true ∧
      (getLocalLocations (createLocation acceptingEnv (emptyStore true) monasData).1).map
          (fun r => (r.id, r.source))
        = [(some (.str "local-0"), some (.str "local"))] := by
  unfold createLocation
  simp only [createLocation_coordinates_monas]
  exact ⟨_, rfl, rfl, rfl⟩

/-- C6, evaluated on an empty store believed online whose backend answers the
create with a status that is not ok: `createLocation` returns `synced = false`,
the flag `isBackendAvailable` is still true and the queue is still empty. -/
theorem createLocation_not_ok_enqueues_nothing :
    ∃ result,
      (createLocation failingEnv (emptyStore true) monasData).2 = .returned result ∧
      result.synced = some false ∧
      (createLocation failingEnv (emptyStore true) monasData).1.isBackendAvailable = true ∧
      (createLocation failingEnv (emptyStore true) monasData).1.pendingSync.length = 0 := by
  unfold createLocation
  simp only [createLocation_coordinates_monas]
  exact ⟨_, rfl, rfl, rfl, rfl⟩

/-- C7. Drain correctness: if `isBackendAvailable` is true, every queued create
or update passes the coordinate format test of the replay, the backend accepts
every request, and the durable key holds the saved queue, then
`syncPendingOperations` makes exactly the replay requests of the queued
operations, one per operation, in queue order and with the method of the
operation type, and leaves the queue empty in memory and in the durable key. -/
theorem syncPendingOperations_drains (env : Env) (s : StorageManager)
    (havailable : s.isBackendAvailable = true)
    (hvalid : ∀ op ∈ s.pendingSync, op.type ≠ .delete →
      invalidPayloadCoordinates (prop op.data.coordinates) = false)
    (haccept : ∀ history request, accepts request (env.backend history request) = true)
    (hmirror : loadPendingSync s = s.pendingSync.map PendingOp.json) :
    (syncPendingOperations env s).requests = s.requests ++ s.pendingSync.map replayRequest ∧
      (syncPendingOperations env s).pendingSync = [] ∧
      loadPendingSync (syncPendingOperations env s) = [] := by
  have hloop := syncLoop_accepted env haccept s.pendingSync s hvalid
  unfold syncPendingOperations
  by_cases hempty : s.pendingSync = []
  · simp [havailable, hempty, hmirror]
  · have hlen : (s.pendingSync.length == 0) = false := by
      simpa using hempty
    simp [havailable, hlen, savePendingSync, loadPendingSync, hloop.1, hloop.2]

/-- Witness of C7: a queue holding a create, an update and a delete is drained
by three requests, `POST`, `PUT` and `DELETE` in this order. -/
theorem syncPendingOperations_drains_witness :
    queuedStore.pendingSync.length = 3 ∧
      (syncPendingOperations acceptingEnv queuedStore).requests.map (·.method)
        = [.POST, .PUT, .DELETE] ∧
      (syncPendingOperations acceptingEnv queuedStore).pendingSync.length = 0 ∧
      (loadPendingSync (syncPendingOperations acceptingEnv queuedStore)).length = 0 := by
  have h := syncPendingOperations_drains acceptingEnv queuedStore rfl
    (by
      intro op hop hnotDelete
      simp only [queuedStore, savePendingSync, List.mem_cons, List.mem_singleton,
        List.not_mem_nil, or_false] at hop
      rcases hop with h | h | h <;> subst h
      · rfl
      · rfl
      · exact absurd rfl hnotDelete)
    (by
      intro history request
      simp [accepts, acceptingEnv, ApiData.id])
    rfl
  refine ⟨rfl, ?_, ?_, ?_⟩
  · rw [h.1]
    rfl
  · rw [h.2.1]
    rfl
  · rw [h.2.2]
    rfl

/-- C8, evaluated on the example scenario: the record is created while the
backend is believed out of reach and one operation is queued; the probe then
answers and `syncPendingOperations` runs against a backend that accepts the
create with the id `srv-1`. The queue is empty afterwards, and the local record
set holds the record still with the id `local-0` and the source `local`. -/
theorem syncPendingOperations_create_keeps_local_id :
    (createLocation acceptingEnv (emptyStore false) monasData).1.pendingSync.length = 1 ∧
      (checkBackendConnection acceptingEnv
        (createLocation acceptingEnv (emptyStore false) monasData).1).2 = true ∧
      (syncPendingOperations acceptingEnv (checkBackendConnection acceptingEnv
        (createLocation acceptingEnv (emptyStore false) monasData).1).1).pendingSync.length = 0 ∧
      (getLocalLocations (syncPendingOperations acceptingEnv (checkBackendConnection acceptingEnv
        (createLocation acceptingEnv (emptyStore false) monasData).1).1)).map
          (fun r => (r.id, r.source))
        = [(some (.str "local-0"), some (.str "local"))] := by
  unfold createLocation
  simp only [createLocation_coordinates_monas]
  exact ⟨rfl, rfl, rfl, rfl⟩

/-- C9 as stated fails: with `isBackendAvailable` false, `updateLocation` called
with an id that no local record has leaves the queue at its length. -/
theorem queue_growth_fails_for_unknown_id :
    storeWithMonas.isBackendAvailable = false ∧
      (Call.run offlineEnv storeWithMonas (.updateLocation (.str "b") monasData)).1.pendingSync.length
        ≠ storeWithMonas.pendingSync.length + 1 := by
  refine ⟨rfl, ?_⟩
  show (0 : Nat) ≠ 0 + 1
  decide

/-- C9, amended. When `isBackendAvailable` is false, every call of
`createLocation`, `updateLocation` or `deleteLocation` that returns
`success = true` appends exactly one operation to the pending queue, so the
queue is longer by one, and makes no remote call. -/
theorem queue_grows_by_one_when_offline (env : Env) (s : StorageManager) (call : Call)
    (result : OpResult) (hdown : s.isBackendAvailable = false)
    (hreturned : (call.run env s).2 = .returned result) (hsuccess : result.success = true) :
    (∃ op, (call.run env s).1.pendingSync = s.pendingSync ++ [op]) ∧
      (call.run env s).1.pendingSync.length = s.pendingSync.length + 1 ∧
      (call.run env s).1.requests = s.requests := by
  cases call with
  | createLocation locationData =>
    simp only [Call.run] at hreturned ⊢
    unfold createLocation at hreturned ⊢
    cases hblock : createLocation.coordinates locationData
        { LocationData.spread { id := some (.str (env.ids s.idsDrawn)) } locationData with
          created_at := some (.str (env.clock s.clockReads))
          updated_at := some (.str (env.clock (s.clockReads + 1)))
          source := some (.str "local") } with
    | none => simp [hblock] at hreturned
    | some location =>
      simp [hblock, setLocalLocations, hdown, addToPendingSync, savePendingSync]
  | updateLocation id locationData =>
    simp only [Call.run] at hreturned ⊢
    unfold updateLocation at hreturned ⊢
    cases hfind : findIndex (fun loc : LocationData => (prop loc.id).strictEq id)
        (getLocalLocations s) with
    | none =>
      simp [hfind] at hreturned
      subst hreturned
      simp at hsuccess
    | some index =>
      simp [hfind, setLocalLocations, hdown, addToPendingSync, savePendingSync]
  | deleteLocation id =>
    simp only [Call.run] at hreturned ⊢
    unfold deleteLocation at hreturned ⊢
    cases hfind : findIndex (fun loc : LocationData => (prop loc.id).strictEq id)
        (getLocalLocations s) with
    | none =>
      simp [hfind] at hreturned
      subst hreturned
      simp at hsuccess
    | some index =>
      simp [hfind, setLocalLocations, hdown, addToPendingSync, savePendingSync]

/-- Witness of C9, amended: deleting the stored record `a` while the backend is
believed out of reach succeeds, queues one operation and makes no request. -/
theorem queue_grows_by_one_when_offline_witness :
    storeWithMonas.isBackendAvailable = false ∧
      (Call.run offlineEnv storeWithMonas (.deleteLocation (.str "a"))).1.pendingSync.length = 1 ∧
      (Call.run offlineEnv storeWithMonas (.deleteLocation (.str "a"))).1.requests.length = 0 :=
  have h := queue_grows_by_one_when_offline offlineEnv storeWithMonas
    (.deleteLocation (.str "a")) { success := true, synced := some false } rfl rfl rfl
  ⟨rfl, h.2.1, by rw [h.2.2]; rfl⟩

/-- C10. If no local record has the id, `updateLocation` and `deleteLocation`
return the failure result `{ success: false, error: 'Location not found' }` and
leave the whole state as it was: the local record set, the pending queue, the
flag, and the log of remote calls. -/
theorem notFound_changes_nothing (env : Env) (s : StorageManager) (id : JsVal)
    (locationData : LocationData)
    (hmissing : ∀ loc ∈ getLocalLocations s, (prop loc.id).strictEq id = false) :
    updateLocation env s id locationData
        = (s, .returned { success := false, error := some "Location not found" }) ∧
      deleteLocation env s id
        = (s, .returned { success := false, error := some "Location not found" }) := by
  have h := findIndex_eq_none (fun loc : LocationData => (prop loc.id).strictEq id) _ hmissing
  constructor
  · unfold updateLocation
    simp only [h]
  · unfold deleteLocation
    simp only [h]

/-- Witness of C10: the id `b` on a store whose only record has the id `a`. -/
theorem notFound_changes_nothing_witness :
    updateLocation offlineEnv storeWithMonas (.str "b") monasData
        = (storeWithMonas, .returned { success := false, error := some "Location not found" }) ∧
      deleteLocation offlineEnv storeWithMonas (.str "b")
        = (storeWithMonas, .returned { success := false, error := some "Location not found" }) :=
  notFound_changes_nothing offlineEnv storeWithMonas (.str "b") monasData (by
    intro loc hloc
    simp [getLocalLocations, storeWithMonas] at hloc
    subst hloc
    rfl)

/-- C11. For every local record set holding decoded JSON with pairwise distinct
ids and every id present in it, `deleteLocation` called twice with that id
returns success the first time and the failure `Location not found` the second
time, whatever the backend answers to either call. -/
theorem deleteLocation_twice_notFound (env₁ env₂ : Env) (s : StorageManager) (id : JsVal)
    (hjson : storedAsJson s) (hdistinct : distinctIds (getLocalLocations s))
    (hpresent : ∃ r ∈ getLocalLocations s, (prop r.id).strictEq id = true) :
    (∃ result, (deleteLocation env₁ s id).2 = .returned result ∧ result.success = true) ∧
      (deleteLocation env₂ (deleteLocation env₁ s id).1 id).2
        = .returned { success := false, error := some "Location not found" } := by
  obtain ⟨i, hfind⟩ := findIndex_isSome _ _ hpresent
  obtain ⟨hlist, hresult⟩ := deleteLocation_found env₁ s id i hfind
  refine ⟨hresult, ?_⟩
  have herased : ((getLocalLocations s).eraseIdx i).map LocationData.json
      = (getLocalLocations s).eraseIdx i :=
    map_json_of_stored _ (fun r hr => hjson r (mem_eraseIdx_mem _ _ _ hr))
  have hnone : findIndex (fun loc : LocationData => (prop loc.id).strictEq id)
      (getLocalLocations (deleteLocation env₁ s id).1) = none := by
    rw [hlist, herased]
    exact findIndex_eq_none _ _ (eraseIdx_findIndex_distinct id _ i hdistinct hfind)
  generalize (deleteLocation env₁ s id).1 = s₁ at hnone
  unfold deleteLocation
  simp only [hnone]

/-- Witness of C11: deleting the id `a` twice from a store holding the records
`a` and `b`. -/
theorem deleteLocation_twice_notFound_witness :
    (deleteLocation acceptingEnv (deleteLocation offlineEnv twoRecordStore (.str "a")).1
        (.str "a")).2
      = .returned { success := false, error := some "Location not found" } :=
  (deleteLocation_twice_notFound offlineEnv acceptingEnv twoRecordStore (.str "a")
    (by
      intro r hr
      simp only [getLocalLocations, twoRecordStore, Option.getD_some, List.mem_cons,
        List.mem_singleton, List.not_mem_nil, or_false] at hr
      rcases hr with h | h <;> subst h <;> rfl)
    (by
      simp only [distinctIds, getLocalLocations, twoRecordStore, Option.getD_some,
        List.pairwise_cons, List.mem_singleton, List.not_mem_nil, List.Pairwise.nil,
        forall_eq, and_true, false_imp_iff, implies_true]
      rfl)
    ⟨_, List.mem_cons_self _ _, rfl⟩).2

/-- C12, evaluated on a store believed online that holds the record `a`, with a
backend answering the delete with a status that is not ok: `deleteLocation`
returns `synced = false` and the record is removed locally, but the queue is
still empty and the flag `isBackendAvailable` is still true. -/
theorem deleteLocation_not_ok_enqueues_nothing :
    (deleteLocation failingEnv onlineStoreWithMonas (.str "a")).2
        = .returned { success := true, synced := some false } ∧
      (getLocalLocations (deleteLocation failingEnv onlineStoreWithMonas (.str "a")).1).length = 0 ∧
      (deleteLocation failingEnv onlineStoreWithMonas (.str "a")).1.pendingSync.length = 0 ∧
      (deleteLocation failingEnv onlineStoreWithMonas (.str "a")).1.isBackendAvailable = true :=
  ⟨rfl, rfl, rfl, rfl⟩

/-- C13 as stated fails: `updateLocation` called with the id `a` and the fields
`{ id: "z" }` succeeds and leaves the matched record with the id `z`. -/
theorem updateLocation_fields_id_overrides :
    (getLocalLocations storeWithMonas).map (·.id) = [some (.str "a")] ∧
      (updateLocation offlineEnv storeWithMonas (.str "a") { id := some (.str "z") }).2
        = .returned
            { success := true
              data := some
                { id := some (.str "z"), name := some (.str "Monas"), coordinates := some monas,
                  updated_at := some (.str "t0"), source := some (.str "local") }
              synced := some false } ∧
      (getLocalLocations
          (updateLocation offlineEnv storeWithMonas (.str "a") { id := some (.str "z") }).1).map
          (·.id)
        = [some (.str "z")] :=
  ⟨rfl, rfl, rfl⟩

/-- C13, amended. For every successful `updateLocation(id, fields)` on a record
set holding decoded JSON, where `fields` has no `id` entry other than `id`
itself, the list of stored ids is unchanged and the record at the matched
position still has the id `id`. -/
theorem updateLocation_keeps_id (env : Env) (s : StorageManager) (id : JsVal)
    (locationData : LocationData)
    (result : OpResult) (hjson : storedAsJson s)
    (hid : ∀ v, locationData.id = some v → v = id)
    (hreturned : (updateLocation env s id locationData).2 = .returned result)
    (hsuccess : result.success = true) :
    (getLocalLocations (updateLocation env s id locationData).1).map (·.id)
        = (getLocalLocations s).map (·.id) ∧
      ∃ i r, findIndex (fun loc : LocationData => (prop loc.id).strictEq id)
          (getLocalLocations s) = some i ∧
        (getLocalLocations (updateLocation env s id locationData).1).get? i = some r ∧
        prop r.id = id := by
  cases hfind : findIndex (fun loc : LocationData => (prop loc.id).strictEq id)
      (getLocalLocations s) with
  | none =>
    unfold updateLocation at hreturned
    simp [hfind] at hreturned
    subst hreturned
    simp at hsuccess
  | some i =>
    obtain ⟨x, hx, hpx⟩ := findIndex_some _ _ _ hfind
    have hxmem : x ∈ getLocalLocations s := List.get?_mem hx
    have hxjson := hjson x hxmem
    have hxid : prop x.id = id := strictEq_eq _ _ hpx
    have hstored : ∀ r ∈ getLocalLocations s, jsonField r.id = r.id :=
      fun r hr => congrArg LocationData.id (hjson r hr)
    obtain ⟨hlist, -⟩ := updateLocation_found env s id locationData i hfind
    simp only [hx, Option.getD_some] at hlist
    have huid : (updatedRecord env s x locationData).id = override x.id locationData.id := by
      unfold updatedRecord
      rw [updateLocation_coordinates_id]
      rfl
    obtain ⟨hju, hpu⟩ := jsonField_updated_id x locationData id hxjson hxid hid
    have hki : ((getLocalLocations s).map (·.id)).get? i = some x.id :=
      get?_map_of_get? _ _ _ _ hx
    have hwritten := ids_set_json (getLocalLocations s) i (updatedRecord env s x locationData)
      x.id hstored hki (by rw [huid]; exact hju)
    have hids : (getLocalLocations (updateLocation env s id locationData).1).map (·.id)
        = (getLocalLocations s).map (·.id) := by
      rcases hlist with h | ⟨j, hj, h⟩
      · rw [h]
        exact hwritten
      · rw [h]
        obtain ⟨y, hy, hpy⟩ := findIndex_some _ _ _ hj
        have hyid : ((getLocalLocations s).map (·.id)).get? j = some y.id := by
          rw [← hwritten]
          exact get?_map_of_get? _ _ _ _ hy
        obtain ⟨r, hr, hry⟩ := get?_of_get?_map _ _ _ _ hyid
        have hrmem : r ∈ getLocalLocations s := List.get?_mem hr
        have hpy' : prop r.id = prop x.id := by
          rw [hry, strictEq_eq _ _ hpy, huid, hpu, hxid]
        have hrx : r.id = x.id := id_eq_of_prop_eq r x (hjson r hrmem) hxjson hpy'
        have hwstored : ∀ w ∈ ((getLocalLocations s).set i
            (updatedRecord env s x locationData)).map LocationData.json,
            jsonField w.id = w.id := by
          intro w hw
          have hwid : w.id ∈ (((getLocalLocations s).set i
              (updatedRecord env s x locationData)).map LocationData.json).map (·.id) :=
            List.mem_map_of_mem _ hw
          rw [hwritten] at hwid
          obtain ⟨r', hr', hr'w⟩ := List.mem_map.mp hwid
          rw [← hr'w]
          exact hstored r' hr'
        have := ids_set_json _ j
          { updatedRecord env s x locationData with source := some (.str "backend") }
          x.id hwstored (by rw [hwritten, hyid, ← hry, hrx]) (by
            show jsonField (updatedRecord env s x locationData).id = x.id
            rw [huid]; exact hju)
        rw [this, hwritten]
    refine ⟨hids, i, ?_⟩
    have : ((getLocalLocations (updateLocation env s id locationData).1).map (·.id)).get? i
        = some x.id := by rw [hids]; exact hki
    obtain ⟨r, hr, hrx⟩ := get?_of_get?_map _ _ _ _ this
    exact ⟨r, rfl, hr, by rw [hrx]; exact hxid⟩

/-- Witness of C13, amended: renaming the record `a` keeps the stored ids. -/
theorem updateLocation_keeps_id_witness :
    (getLocalLocations
        (updateLocation offlineEnv storeWithMonas (.str "a") { name := some (.str "Tugu") }).1).map
        (·.id)
      = [some (.str "a")] :=
  (updateLocation_keeps_id offlineEnv storeWithMonas (.str "a") { name := some (.str "Tugu") }
    { success := true
      data := some
        { id := some (.str "a"), name := some (.str "Tugu"), coordinates := some monas,
          updated_at := some (.str "t0"), source := some (.str "local") }
      synced := some false }
    (by
      intro r hr
      simp only [getLocalLocations, storeWithMonas, Option.getD_some, List.mem_singleton] at hr
      subst hr
      rfl)
    (by intro v hv; exact absurd hv (by simp))
    rfl rfl).1

/-- C14 as stated fails: `createLocation` given fields that carry the id `a`
stores the new record under the id `a`, not under the generated id `local-0`, and
next to the stored record that already has the id `a`. -/
theorem createLocation_fields_id_overrides :
    offlineEnv.ids storeWithMonas.idsDrawn = "local-0" ∧
      (getLocalLocations
          (createLocation offlineEnv storeWithMonas
            { id := some (.str "a"), name := some (.str "Copy") }).1).map (·.id)
        = [some (.str "a"), some (.str "a")] :=
  ⟨rfl, rfl⟩

/-- C14, amended. For every fields value without an `id` entry, a
`createLocation` that returns leaves, as the record stored last, a record whose
id is the identifier produced by `generateId` for this call; hence, if that
identifier is the id of no record already stored, the new id differs from the id
of every record already stored. -/
theorem createLocation_generated_id (env : Env) (s : StorageManager) (locationData : LocationData)
    (result : OpResult) (hnoid : locationData.id = none)
    (hreturned : (createLocation env s locationData).2 = .returned result) :
    ∃ r, (getLocalLocations (createLocation env s locationData).1).getLast? = some r ∧
      r.id = some (.str (env.ids s.idsDrawn)) ∧
      ((∀ old ∈ getLocalLocations s,
          (prop old.id).strictEq (.str (env.ids s.idsDrawn)) = false) →
        ∀ old ∈ getLocalLocations s, (prop old.id).strictEq (prop r.id) = false) := by
  have hgoal : ∀ r : LocationData, r.id = some (.str (env.ids s.idsDrawn)) →
      r.id = some (.str (env.ids s.idsDrawn)) ∧
      ((∀ old ∈ getLocalLocations s,
          (prop old.id).strictEq (.str (env.ids s.idsDrawn)) = false) →
        ∀ old ∈ getLocalLocations s, (prop old.id).strictEq (prop r.id) = false) := by
    intro r hr
    refine ⟨hr, fun hfresh old hold => ?_⟩
    rw [hr]
    exact hfresh old hold
  unfold createLocation at hreturned ⊢
  dsimp only at hreturned ⊢
  split
  · rename_i hnone
    rw [hnone] at hreturned
    exact absurd hreturned (by simp)
  · rename_i location hblock
    have hlocid : location.id = some (.str (env.ids s.idsDrawn)) := by
      rw [createLocation_coordinates_id _ _ _ hblock]
      simp [LocationData.spread, override, hnoid]
    have hbase : ∀ (t : StorageManager) (loc : LocationData),
        loc.id = some (.str (env.ids s.idsDrawn)) →
        ∃ r, (getLocalLocations (setLocalLocations t (getLocalLocations t ++ [loc]))).getLast?
            = some r ∧ r.id = some (.str (env.ids s.idsDrawn)) := by
      intro t loc hloc
      exact ⟨loc.json, by simp, by simp [LocationData.json, hloc, jsonField, JsVal.json]⟩
    have hwrap : ∀ t : StorageManager,
        (∃ r, (getLocalLocations t).getLast? = some r ∧
          r.id = some (.str (env.ids s.idsDrawn))) →
        ∃ r, (getLocalLocations t).getLast? = some r ∧
          r.id = some (.str (env.ids s.idsDrawn)) ∧
          ((∀ old ∈ getLocalLocations s,
              (prop old.id).strictEq (.str (env.ids s.idsDrawn)) = false) →
            ∀ old ∈ getLocalLocations s, (prop old.id).strictEq (prop r.id) = false) := by
      intro t ⟨r, hr, hrid⟩
      exact ⟨r, hr, hgoal r hrid⟩
    split
    · split
      · exact hwrap _ (hbase _ _ hlocid)
      · exact hwrap _ (hbase _ _ hlocid)
      · exact hwrap _ (hbase _ _ hlocid)
      · split
        · split
          · exact hwrap _ (hbase _ _ hlocid)
          · exact hwrap _ (lastId_updateLocalLocation _ _ _ (hbase _ _ hlocid))
        · exact hwrap _ (hbase _ _ hlocid)
    · exact hwrap _ (hbase _ _ hlocid)

/-- Witness of C14, amended: a create without an id entry on a store holding the
record `a`. -/
theorem createLocation_generated_id_witness :
    ∃ r, (getLocalLocations
        (createLocation offlineEnv storeWithMonas { name := some (.str "Tugu") }).1).getLast?
        = some r ∧ r.id = some (.str "local-0") := by
  obtain ⟨r, hr, hid, -⟩ := createLocation_generated_id offlineEnv storeWithMonas
    { name := some (.str "Tugu") }
    { success := true
      data := some
        { id := some (.str "local-0"), name := some (.str "Tugu"),
          coordinates := some fallbackPoint, created_at := some (.str "t0"),
          updated_at := some (.str "t1"), source := some (.str "local") }
      synced := some false }
    rfl rfl
  exact ⟨r, hr, hid⟩

/-- C15. When `isBackendAvailable` is true and the list fetch answers ok with
`success = true` and a data array `D` (decoded JSON), `getLocations` returns `D`
and leaves the local record set equal to `D`. -/
theorem getLocations_from_backend (env : Env) (s : StorageManager) (D : List LocationData)
    (text : String)
    (havailable : s.isBackendAvailable = true)
    (hanswer : env.backend s.requests listRequest
      = .answered true (some { success := true, data := .records D }) text)
    (hD : D.map LocationData.json = D) :
    (getLocations env s).2 = D ∧ getLocalLocations (getLocations env s).1 = D := by
  unfold getLocations
  simp only [havailable, fetch, if_true]
  unfold listRequest at hanswer
  rw [hanswer]
  simp [hD]

/-- Witness of C15: a backend listing one record, read into an empty store. -/
theorem getLocations_from_backend_witness :
    (getLocations listingEnv (emptyStore true)).2.length = 1 ∧
      getLocalLocations (getLocations listingEnv (emptyStore true)).1
        = (getLocations listingEnv (emptyStore true)).2 := by
  have h := getLocations_from_backend listingEnv (emptyStore true)
    [{ id := some (.str "srv-1"), name := some (.str "Monas"), coordinates := some monas }] ""
    rfl rfl rfl
  rw [h.1, h.2]
  exact ⟨rfl, rfl⟩

/-- C16 as stated fails: when the list fetch is answered with a status that is
not ok, `getLocations` leaves `isBackendAvailable` true. -/
theorem getLocations_not_ok_keeps_flag :
    listFailure (failingEnv.backend (emptyStore true).requests listRequest) = true ∧
      (getLocations failingEnv (emptyStore true)).1.isBackendAvailable = true :=
  ⟨rfl, rfl⟩

/-- C16, amended. On any list-fetch failure (the fetch throws, the status is not
ok, the body does not decode, or it lacks `success` or `data`), `getLocations`
returns the local record set and leaves `localStorage` and the queue unchanged;
`isBackendAvailable` becomes false when the failure raises an exception (the
fetch throws or the body does not decode) and stays true otherwise. -/
theorem getLocations_failure (env : Env) (s : StorageManager)
    (havailable : s.isBackendAvailable = true)
    (hfailure : listFailure (env.backend s.requests listRequest) = true) :
    (getLocations env s).2 = getLocalLocations s ∧
      (getLocations env s).1.localStorage = s.localStorage ∧
      (getLocations env s).1.pendingSync = s.pendingSync ∧
      (getLocations env s).1.isBackendAvailable
        = !raises (env.backend s.requests listRequest) := by
  unfold getLocations
  simp only [havailable, fetch, if_true]
  unfold listRequest at hfailure ⊢
  cases hr : env.backend s.requests { method := .GET, endpoint := .locations } with
  | rejected => simp [raises]
  | answered ok json text =>
    rw [hr] at hfailure
    cases ok with
    | false => simp [raises, havailable]
    | true =>
      cases json with
      | none => simp [raises]
      | some result =>
        simp only [listFailure, Bool.or_eq_true, Bool.not_eq_true'] at hfailure
        cases hs : result.success with
        | false => simp [raises, havailable, hs]
        | true =>
          rw [hs] at hfailure
          cases hd : result.data with
          | absent => simp [raises, havailable, hs, hd]
          | record r => rw [hd] at hfailure; simp at hfailure
          | records rs => rw [hd] at hfailure; simp at hfailure

/-- Witness of C16, amended: a list fetch that throws. -/
theorem getLocations_failure_witness :
    (getLocations offlineEnv onlineStoreWithMonas).2 = getLocalLocations onlineStoreWithMonas ∧
      (getLocations offlineEnv onlineStoreWithMonas).1.isBackendAvailable = false := by
  have h := getLocations_failure offlineEnv onlineStoreWithMonas rfl rfl
  exact ⟨h.1, h.2.2.2⟩

/-- C17. With `isBackendAvailable` false, `getLocations` returns the local record
set and leaves the whole state as it was (record set, queue, flag, and the log
of remote calls), and a second call returns the same list as the first. -/
theorem getLocations_offline_readonly (env : Env) (s : StorageManager)
    (hdown : s.isBackendAvailable = false) :
    getLocations env s = (s, getLocalLocations s) ∧
      (getLocations env (getLocations env s).1).2 = (getLocations env s).2 := by
  have h := getLocations_offline env s hdown
  refine ⟨h, ?_⟩
  rw [h]
  simp only []
  rw [h]

/-- Witness of C17: two reads of a store believed out of reach. -/
theorem getLocations_offline_readonly_witness :
    getLocations offlineEnv storeWithMonas = (storeWithMonas, getLocalLocations storeWithMonas) ∧
      (getLocations offlineEnv (getLocations offlineEnv storeWithMonas).1).2
        = (getLocations offlineEnv storeWithMonas).2 :=
  getLocations_offline_readonly offlineEnv storeWithMonas rfl

/-- C18 as stated fails: fields without coordinates come back from the round trip
as a record that has the fallback point as its coordinates. -/
theorem createLocation_roundtrip_fallback :
    ({ name := some (.str "Monas") } : LocationData).coordinates = none ∧
      (getLocations offlineEnv
          (createLocation offlineEnv (emptyStore false) { name := some (.str "Monas") }).1).2.map
          (fun r => (r.name, r.coordinates))
        = [(some (.str "Monas"), some fallbackPoint)] :=
  ⟨rfl, rfl⟩

/-- C18, amended. Round trip with the backend believed out of reach, on a record
set holding decoded JSON: for every fields value whose coordinates are
`{ type: 'Point', coordinates: [lng, lat] }` with the pair in range and whose
name, category, description and address are absent or JSON values, a
`getLocations` after `createLocation(fields)` returns the previous records in
their order followed by one new record with the name, category, description,
address and coordinates of `fields`. -/
theorem createLocation_roundtrip (env : Env) (s : StorageManager)
    (locationData : LocationData) (lng lat : ℚ)
    (hdown : s.isBackendAvailable = false) (hjson : storedAsJson s)
    (hc : locationData.coordinates = some (point (.num (.fin lng)) (.num (.fin lat))))
    (hlng : -180 ≤ lng ∧ lng ≤ 180) (hlat : -90 ≤ lat ∧ lat ≤ 90)
    (hname : jsonField locationData.name = locationData.name)
    (hcategory : jsonField locationData.category = locationData.category)
    (hdescription : jsonField locationData.description = locationData.description)
    (haddress : jsonField locationData.address = locationData.address) :
    ∃ created, (getLocations env (createLocation env s locationData).1).2
        = getLocalLocations s ++ [created] ∧
      created.name = locationData.name ∧ created.category = locationData.category ∧
      created.description = locationData.description ∧ created.address = locationData.address ∧
      created.coordinates = locationData.coordinates := by
  obtain ⟨hlist, hflag⟩ := createLocation_offline env s locationData _ hdown
    (createLocation_coordinates_valid locationData (newRecord env s locationData) lng lat
      hc hlng hlat)
  refine ⟨LocationData.json { newRecord env s locationData with
      coordinates := some (point (.num (.fin lng)) (.num (.fin lat))) }, ?_, ?_⟩
  · rw [getLocations_offline env _ hflag]
    simp only []
    rw [hlist, List.map_append, map_json_of_stored _ hjson]
    rfl
  · simp [LocationData.json, newRecord, LocationData.spread, override_none, hname, hcategory,
      hdescription, haddress, hc, jsonField_point]

/-- Witness of C18, amended: the example scenario on a store holding one
record. -/
theorem createLocation_roundtrip_witness :
    ∃ created, (getLocations offlineEnv (createLocation offlineEnv storeWithMonas monasData).1).2
        = getLocalLocations storeWithMonas ++ [created] ∧
      created.name = some (.str "Monas") ∧ created.coordinates = some monas := by
  obtain ⟨created, hlist, hname, -, -, -, hcoordinates⟩ :=
    createLocation_roundtrip offlineEnv storeWithMonas monasData
      (1068275 / 10000) (-61754 / 10000) rfl
      (by
        intro r hr
        simp only [getLocalLocations, storeWithMonas, Option.getD_some, List.mem_singleton] at hr
        subst hr
        rfl)
      rfl (by norm_num) (by norm_num) rfl rfl rfl rfl
  exact ⟨created, hlist, hname, hcoordinates⟩

/-- C19 as stated fails: a queued create whose replay is answered with a status
that is not ok and the text `Coordinates are required` is replayed by one
request and is no longer queued afterwards. -/
theorem syncPendingOperations_drops_refused :
    (storeWithQueuedCreate monas).pendingSync.length = 1 ∧
      (syncPendingOperations refusingEnv (storeWithQueuedCreate monas)).requests.length = 1 ∧
      (syncPendingOperations refusingEnv (storeWithQueuedCreate monas)).pendingSync.length = 0 :=
  ⟨rfl, rfl, rfl⟩

/-- C19, amended. After `syncPendingOperations` with `isBackendAvailable` true,
the queue is exactly the sub-sequence, in original order, of the operations that
were replayed and whose answer did not remove them (`remainingAfterReplay`): a
create or update whose payload fails the format test is dropped without a
request, an ok answer with `success = true` removes the operation, and so does,
for a create or update, an answer that is not ok with the text
`Coordinates are required`; every other operation stays queued. A delete is
pushed to `syncedOperations` only when its replay answered ok with
`success = true`. -/
theorem syncPendingOperations_remaining (env : Env) (s : StorageManager)
    (havailable : s.isBackendAvailable = true) :
    (syncPendingOperations env s).pendingSync
        = remainingAfterReplay env s.requests s.pendingSync ∧
      ∀ (t : StorageManager) (operation : PendingOp), operation.type = .delete →
        (syncOperation env t operation).2 = true →
        ∃ result text, env.backend t.requests (replayRequest operation)
          = .answered true (some result) text ∧ result.success = true := by
  constructor
  · unfold syncPendingOperations
    by_cases hempty : s.pendingSync = []
    · simp [havailable, hempty, remainingAfterReplay]
    · have hlen : (s.pendingSync.length == 0) = false := by
        simpa using hempty
      simp [havailable, hlen, savePendingSync, syncLoop_remaining]
  · intro t operation htype hpushed
    have hrep := syncOperation_replayed env t operation (by simp [htype])
    rw [hrep.1] at hpushed
    cases hr : env.backend t.requests (replayRequest operation) with
    | rejected => simp [hr, removedBy] at hpushed
    | answered ok json text =>
      rw [hr] at hpushed
      cases ok with
      | false => simp [removedBy, htype] at hpushed
      | true =>
        cases json with
        | none => simp [removedBy] at hpushed
        | some result =>
          simp [removedBy, htype] at hpushed
          exact ⟨result, text, rfl, hpushed⟩

/-- Witness of C19, amended: of a queued create, update and delete, the create is
accepted, the update meets a network error and the delete a status that is not
ok; the update and the delete stay queued, in this order. -/
theorem syncPendingOperations_remaining_witness :
    queuedStore.pendingSync.map (·.type) = [.create, .update, .delete] ∧
      (syncPendingOperations mixedEnv queuedStore).pendingSync.map (·.type)
        = [.update, .delete] := by
  refine ⟨rfl, ?_⟩
  rw [(syncPendingOperations_remaining mixedEnv queuedStore rfl).1]
  rfl

/-- C20 as stated fails: the pair `[999, 999]` is invalid under the validation
rule of the store, and a queued create carrying it is replayed by a `POST`. -/
theorem syncPendingOperations_replays_out_of_range :
    invalidCoordinateValues (.num (.fin 999)) (.num (.fin 999)) = true ∧
      (syncPendingOperations acceptingEnv (storeWithQueuedCreate farPoint)).requests.map
          (·.method) = [.POST] := by
  refine ⟨?_, rfl⟩
  simp [invalidCoordinateValues, JsNum.isNaN, JsNum.ltConst, JsNum.gtConst]
  norm_num

/-- C20, amended. In `syncPendingOperations`, every queued create or update
whose payload coordinates fail the format test of the replay (missing or falsy
coordinates, a missing or falsy inner value, or an inner value that is not an
array) is pushed to `syncedOperations` with no remote call and no other effect:
the iteration leaves the state as it was, and the loop over the queue continues
as if the operation had not been queued. -/
theorem syncPendingOperations_drops_malformed (env : Env) (s : StorageManager)
    (operation : PendingOp) (rest : List PendingOp) (htype : operation.type ≠ .delete)
    (hinvalid : invalidPayloadCoordinates (prop operation.data.coordinates) = true) :
    syncOperation env s operation = (s, true) ∧
      syncLoop env s (operation :: rest) = syncLoop env s rest := by
  have hstep := syncOperation_invalid env s operation htype hinvalid
  refine ⟨hstep, ?_⟩
  simp only [syncLoop, hstep, if_true]

/-- Witness of C20, amended: a queued update without coordinates, in front of
the queue of `queuedStore`. -/
theorem syncPendingOperations_drops_malformed_witness :
    syncLoop acceptingEnv queuedStore
        ({ type := .update, data := { id := some (.str "a") }, timestamp := "t0" }
          :: queuedStore.pendingSync)
      = syncLoop acceptingEnv queuedStore queuedStore.pendingSync :=
  (syncPendingOperations_drops_malformed acceptingEnv queuedStore
    { type := .update, data := { id := some (.str "a") }, timestamp := "t0" }
    queuedStore.pendingSync (by simp) rfl).2

/-- C21. In `syncPendingOperations` past its guard, let a create or update of
the queue be replayed and answered with a status that is not ok. The queue left
behind is the part left of the operations before it, then this operation unless
the text of the answer contains `Coordinates are required`, then the part left of
the operations after it; both parts are `remainingAfterReplay`, in which every
operation stays or goes by the answer to its own request only. -/
theorem syncPendingOperations_coordinates_required (env : Env) (s : StorageManager)
    (before after : List PendingOp) (operation : PendingOp) (json : Option ApiResult)
    (text : String)
    (havailable : s.isBackendAvailable = true)
    (hqueue : s.pendingSync = before ++ operation :: after)
    (htype : operation.type ≠ .delete)
    (hformat : invalidPayloadCoordinates (prop operation.data.coordinates) = false)
    (hanswer : env.backend (s.requests ++ (before.filter isReplayed).map replayRequest)
      (replayRequest operation) = .answered false json text) :
    (syncPendingOperations env s).pendingSync
      = remainingAfterReplay env s.requests before
        ++ (if includes text "Coordinates are required" then [] else [operation])
        ++ remainingAfterReplay env
            (s.requests ++ (before.filter isReplayed).map replayRequest
              ++ [replayRequest operation]) after := by
  rw [← syncLoop_requests env before s] at hanswer
  have hstep := syncOperation_not_ok env (syncLoop env s before).1 operation json text htype
    hformat hanswer
  have hafter := syncLoop_remaining env after
    (fetch env (syncLoop env s before).1 (replayRequest operation)).1
  have hlog : (fetch env (syncLoop env s before).1 (replayRequest operation)).1.requests
      = (syncLoop env s before).1.requests ++ [replayRequest operation] := rfl
  rw [hlog] at hafter
  unfold syncPendingOperations
  have hlen : (s.pendingSync.length == 0) = false := by
    simp [hqueue]
  simp only [havailable, hlen, savePendingSync, Bool.not_true, Bool.or_self, Bool.false_eq_true,
    if_false]
  rw [hqueue, syncLoop_append]
  simp only [syncLoop, hstep]
  rw [← syncLoop_requests env before s, ← syncLoop_remaining env before s, ← hafter]
  split <;> simp

/-- Witness of C21: of a queued create, update and delete, the create is refused
with the text `Coordinates are required`, the update is refused with another
text and the delete is accepted; only the update stays queued. -/
theorem syncPendingOperations_coordinates_required_witness :
    queuedStore.pendingSync.map (·.type) = [.create, .update, .delete] ∧
      (syncPendingOperations pickyEnv queuedStore).pendingSync.map (·.type) = [.update] := by
  refine ⟨rfl, ?_⟩
  rw [syncPendingOperations_coordinates_required pickyEnv queuedStore []
    queuedStore.pendingSync.tail
    { type := .create, data := { monasData with id := some (.str "local-0") }, timestamp := "t0" }
    none "400: Coordinates are required" rfl rfl (by simp) rfl rfl]
  rfl

/-- C22. `checkBackendConnection` returns a boolean on every input (the model is
a total function: every failure of the probe is caught), and `isBackendAvailable`
after the call equals the result. The result is `true` exactly when the host is
`localhost` and the probe was answered with an ok status; so it is `false` when
the probe is rejected, answered with a status that is not ok, or the host is
another one. The probe is sent exactly when the host is `localhost`. -/
theorem checkBackendConnection_result (env : Env) (s : StorageManager) :
    (checkBackendConnection env s).1.isBackendAvailable = (checkBackendConnection env s).2 ∧
      ((checkBackendConnection env s).2 = true ↔
        env.hostname = "localhost" ∧
          ∃ json text, env.backend s.requests healthRequest = .answered true json text) ∧
      (checkBackendConnection env s).1.requests
        = (if env.hostname = "localhost" then s.requests ++ [healthRequest] else s.requests) := by
  unfold checkBackendConnection healthRequest
  by_cases hhost : env.hostname = "localhost"
  · simp only [hhost, bne_self_eq_false, Bool.false_eq_true, if_false, if_true, fetch, true_and]
    cases hr : env.backend s.requests { method := .GET, endpoint := .health } with
    | rejected => simp
    | answered ok json text =>
      cases ok <;> simp
  · have hne : (env.hostname != "localhost") = true := by simpa using hhost
    simp [hne, hhost]

/-- C23. For every operation other than the probe (`getLocations`, the three
mutating calls, `syncPendingOperations`, `clearLocalData`), with any backend: if
`isBackendAvailable` is `false` before the call, it is `false` after it. -/
theorem isBackendAvailable_stays_false (env : Env) (s : StorageManager) (operation : Operation)
    (hdown : s.isBackendAvailable = false) :
    (operation.run env s).isBackendAvailable = false := by
  cases operation with
  | getLocations =>
    simp only [Operation.run, getLocations_offline env s hdown]
    exact hdown
  | mutate call =>
    cases call with
    | createLocation locationData =>
      simp only [Operation.run, Call.run]
      unfold createLocation
      dsimp only
      split
      · exact hdown
      · simp [setLocalLocations, hdown, addToPendingSync, savePendingSync]
    | updateLocation id locationData =>
      simp only [Operation.run, Call.run]
      unfold updateLocation
      dsimp only
      split
      · exact hdown
      · simp [setLocalLocations, hdown, addToPendingSync, savePendingSync]
    | deleteLocation id =>
      simp only [Operation.run, Call.run]
      unfold deleteLocation
      dsimp only
      split
      · exact hdown
      · simp [setLocalLocations, hdown, addToPendingSync, savePendingSync]
  | syncPendingOperations =>
    simp [Operation.run, syncPendingOperations, hdown]
  | clearLocalData =>
    simp [Operation.run, clearLocalData, hdown]

/-- Witness of C23: a create on a store believed out of reach, with a backend that
would accept it. -/
theorem isBackendAvailable_stays_false_witness :
    (emptyStore false).isBackendAvailable = false ∧
      ((Operation.mutate (.createLocation { name := some (.str "Monas") })).run acceptingEnv
        (emptyStore false)).isBackendAvailable = false :=
  ⟨rfl, isBackendAvailable_stays_false acceptingEnv (emptyStore false) _ rfl⟩

/-- C24 as stated fails: an update that names only `name`, on a record with the
source `local`, is accepted by the backend; the call succeeds, and the stored
record then has the source `backend`, a field that was not supplied. -/
theorem updateLocation_synced_rewrites_source :
    (getLocalLocations onlineStoreWithMonas).map (·.source) = [some (.str "local")] ∧
      ({ name := some (.str "Tugu") } : LocationData).source = none ∧
      (∃ result, (updateLocation acceptingEnv onlineStoreWithMonas (.str "a")
          { name := some (.str "Tugu") }).2 = .returned result ∧ result.success = true) ∧
      (getLocalLocations (updateLocation acceptingEnv onlineStoreWithMonas (.str "a")
          { name := some (.str "Tugu") }).1).map (·.source) = [some (.str "backend")] :=
  ⟨rfl, rfl, ⟨_, rfl, rfl⟩, rfl⟩

/-- C24, amended. Let the stored records be decoded JSON, the fields be JSON
values whose `id`, if present, is the id of the call, and the coordinates of the
fields be absent or a pair of numbers in range. After a successful
`updateLocation` the record list is the old list with one position rewritten,
the first one whose id is the id of the call; the record written there is the
old record with each supplied field in place of the old value, each other field
kept, `updated_at` set to the time of the call, and `source` set to `backend`
when the update was synced. -/
theorem updateLocation_merges_fields (env : Env) (s : StorageManager) (id : JsVal) (locationData : LocationData)
    (result : OpResult) (hjson : storedAsJson s)
    (hfields : locationData.json = locationData)
    (hid : ∀ v, locationData.id = some v → v = id)
    (hcoordinates : locationData.coordinates = none ∨
      ∃ lng lat : ℚ, locationData.coordinates = some (point (.num (.fin lng)) (.num (.fin lat))) ∧
        (-180 ≤ lng ∧ lng ≤ 180) ∧ (-90 ≤ lat ∧ lat ≤ 90))
    (hreturned : (updateLocation env s id locationData).2 = .returned result)
    (hsuccess : result.success = true) :
    ∃ i existing,
      findIndex (fun loc : LocationData => (prop loc.id).strictEq id) (getLocalLocations s)
        = some i ∧
      (getLocalLocations s).get? i = some existing ∧
      getLocalLocations (updateLocation env s id locationData).1
        = (getLocalLocations s).set i
            { LocationData.spread existing locationData with
              updated_at := some (.str (env.clock s.clockReads))
              source := if result.synced = some true then some (.str "backend")
                        else override existing.source locationData.source } := by
  cases hfind : findIndex (fun loc : LocationData => (prop loc.id).strictEq id)
      (getLocalLocations s) with
  | none =>
    unfold updateLocation at hreturned
    simp [hfind] at hreturned
    subst hreturned
    simp at hsuccess
  | some i =>
    obtain ⟨x, hx, hpx⟩ := findIndex_some _ _ _ hfind
    have hxjson : x.json = x := hjson x (List.get?_mem hx)
    have hxid : prop x.id = id := strictEq_eq _ _ hpx
    have hu : updatedRecord env s x locationData
        = { LocationData.spread x locationData with
            updated_at := some (.str (env.clock s.clockReads)) } :=
      updateLocation_coordinates_kept locationData x _ hcoordinates
    have hf : ∀ (f : LocationData → Option JsVal),
        (∀ r : LocationData, (r.json = r → jsonField (f r) = f r)) →
        jsonField (override (f x) (f locationData)) = override (f x) (f locationData) :=
      fun f hf => jsonField_override _ _ (hf x hxjson) (hf locationData hfields)
    have hmerged : LocationData.json
        { LocationData.spread x locationData with
          updated_at := some (.str (env.clock s.clockReads)) }
        = { LocationData.spread x locationData with
            updated_at := some (.str (env.clock s.clockReads)) } := by
      simp only [LocationData.json, LocationData.spread]
      rw [hf (·.id) (fun r h => congrArg LocationData.id h),
        hf (·.name) (fun r h => congrArg LocationData.name h),
        hf (·.category) (fun r h => congrArg LocationData.category h),
        hf (·.description) (fun r h => congrArg LocationData.description h),
        hf (·.address) (fun r h => congrArg LocationData.address h),
        hf (·.coordinates) (fun r h => congrArg LocationData.coordinates h),
        hf (·.created_at) (fun r h => congrArg LocationData.created_at h),
        hf (·.source) (fun r h => congrArg LocationData.source h)]
      rfl
    have hsynced : LocationData.json
        { LocationData.spread x locationData with
          updated_at := some (.str (env.clock s.clockReads))
          source := some (.str "backend") }
        = { LocationData.spread x locationData with
            updated_at := some (.str (env.clock s.clockReads))
            source := some (.str "backend") } := by
      simp only [LocationData.json, LocationData.spread]
      rw [hf (·.id) (fun r h => congrArg LocationData.id h),
        hf (·.name) (fun r h => congrArg LocationData.name h),
        hf (·.category) (fun r h => congrArg LocationData.category h),
        hf (·.description) (fun r h => congrArg LocationData.description h),
        hf (·.address) (fun r h => congrArg LocationData.address h),
        hf (·.coordinates) (fun r h => congrArg LocationData.coordinates h),
        hf (·.created_at) (fun r h => congrArg LocationData.created_at h)]
      rfl
    have hstored := map_json_of_stored _ hjson
    refine ⟨i, x, rfl, hx, ?_⟩
    have hcases := updateLocation_found_synced env s id locationData i hfind
    simp only [hx, Option.getD_some, hu] at hcases
    rcases hcases with ⟨hres, hlist⟩ | ⟨hres, t, ht, hlist⟩
    · rw [hres] at hreturned
      simp only [Outcome.returned.injEq] at hreturned
      subst hreturned
      rw [hlist, List.map_set, hstored, hmerged]
      simp [LocationData.spread]
    · rw [hres] at hreturned
      simp only [Outcome.returned.injEq] at hreturned
      subst hreturned
      rw [List.map_set, hstored, hmerged] at ht
      have hpid : prop (LocationData.spread x locationData).id = id :=
        (jsonField_updated_id x locationData id hxjson hxid hid).2
      have hfindt : findIndex (fun loc : LocationData => (prop loc.id).strictEq
            (prop ({ LocationData.spread x locationData with
              updated_at := some (.str (env.clock s.clockReads))
              source := some (.str "backend") } : LocationData).id))
            (getLocalLocations t) = some i := by
        show findIndex (fun loc : LocationData => (prop loc.id).strictEq
            (prop (LocationData.spread x locationData).id)) (getLocalLocations t) = some i
        rw [ht, hpid]
        apply findIndex_set
        · show (prop (LocationData.spread x locationData).id).strictEq id = true
          rw [hpid]
          rw [hxid] at hpx
          exact hpx
        · exact hfind
      rw [hlist, getLocalLocations_updateLocalLocation_found t _ i hfindt, ht, List.set_set,
        List.map_set, hstored, hsynced]
      simp

/-- Witness of C24, amended: renaming the record `a` while the backend is believed
out of reach. -/
theorem updateLocation_merges_fields_witness :
    getLocalLocations
        (updateLocation offlineEnv storeWithMonas (.str "a") { name := some (.str "Tugu") }).1
      = [{ id := some (.str "a"), name := some (.str "Tugu"), coordinates := some monas,
           updated_at := some (.str "t0"), source := some (.str "local") }] := by
  obtain ⟨i, existing, hfind, hget, hlist⟩ :=
    updateLocation_merges_fields offlineEnv storeWithMonas (.str "a")
      { name := some (.str "Tugu") }
      { success := true
        data := some
          { id := some (.str "a"), name := some (.str "Tugu"), coordinates := some monas,
            updated_at := some (.str "t0"), source := some (.str "local") }
        synced := some false }
      (by
        intro r hr
        simp only [getLocalLocations, storeWithMonas, Option.getD_some, List.mem_singleton] at hr
        subst hr
        rfl)
      rfl (by intro v hv; exact absurd hv (by simp)) (Or.inl rfl) rfl rfl
  have hi : 0 = i := Option.some.inj hfind
  subst hi
  have he : _ = existing := Option.some.inj hget
  subst he
  rw [hlist]
  rfl

/-- C25. With the stored records decoded JSON, a `deleteLocation` whose id is the
id of a stored record leaves the old list with exactly one position erased, the
first one whose record has that id: the length is one less and the other records
are kept in their order. This holds for every backend and either value of the
flag. -/
theorem deleteLocation_removes_first_match (env : Env) (s : StorageManager) (id : JsVal) (hjson : storedAsJson s)
    (hpresent : ∃ r ∈ getLocalLocations s, (prop r.id).strictEq id = true) :
    ∃ i r, (getLocalLocations s).get? i = some r ∧ (prop r.id).strictEq id = true ∧
      (∀ k x, k < i → (getLocalLocations s).get? k = some x → (prop x.id).strictEq id = false) ∧
      getLocalLocations (deleteLocation env s id).1 = (getLocalLocations s).eraseIdx i ∧
      (getLocalLocations (deleteLocation env s id).1).length + 1
        = (getLocalLocations s).length := by
  obtain ⟨i, hfind⟩ := findIndex_isSome _ _ hpresent
  obtain ⟨r, hr, hpr⟩ := findIndex_some _ _ _ hfind
  obtain ⟨hlist, -⟩ := deleteLocation_found env s id i hfind
  have herased : ((getLocalLocations s).eraseIdx i).map LocationData.json
      = (getLocalLocations s).eraseIdx i :=
    map_json_of_stored _ (fun r hr => hjson r (mem_eraseIdx_mem _ _ _ hr))
  have hlt : i < (getLocalLocations s).length := by
    rw [List.get?_eq_getElem?] at hr
    exact (List.getElem?_eq_some_iff.mp hr).1
  refine ⟨i, r, hr, hpr, findIndex_first _ _ _ hfind, by rw [hlist, herased], ?_⟩
  rw [hlist, herased, List.length_eraseIdx, if_pos hlt]
  omega

/-- Witness of C25: deleting the id `a` from a store holding the records `a` and
`b`, with a backend that would accept the delete. -/
theorem deleteLocation_removes_first_match_witness :
    (getLocalLocations (deleteLocation acceptingEnv twoRecordStore (.str "a")).1).length + 1
      = (getLocalLocations twoRecordStore).length := by
  obtain ⟨i, r, -, -, -, -, hlength⟩ :=
    deleteLocation_removes_first_match acceptingEnv twoRecordStore (.str "a")
      (by
        intro r hr
        simp only [getLocalLocations, twoRecordStore, Option.getD_some, List.mem_cons,
          List.mem_singleton, List.not_mem_nil, or_false] at hr
        rcases hr with h | h <;> subst h <;> rfl)
      ⟨_, List.mem_cons_self _ _, rfl⟩
  exact hlength

/-- C26. In `syncPendingOperations` past the flag test, the requests made are the
replay requests of the queued operations that are replayed, in queue order, each
built from the data that operation was enqueued with: an update or a delete goes
to the id in its own data, whatever an earlier create of the queue was answered.
The queue left behind is a sub-sequence of the original one, so no operation that
stays queued has had its data changed. -/
theorem syncPendingOperations_replays_enqueued_ids (env : Env) (s : StorageManager) (havailable : s.isBackendAvailable = true) :
    (syncPendingOperations env s).requests
        = s.requests ++ (s.pendingSync.filter isReplayed).map replayRequest ∧
      (∀ operation : PendingOp, operation.type ≠ .create →
        (replayRequest operation).endpoint = .location (prop operation.data.id)) ∧
      List.Sublist (syncPendingOperations env s).pendingSync s.pendingSync := by
  refine ⟨?_, ?_, ?_⟩
  · unfold syncPendingOperations
    by_cases hempty : s.pendingSync = []
    · simp [havailable, hempty]
    · have hlen : (s.pendingSync.length == 0) = false := by simpa using hempty
      simp [havailable, hlen, savePendingSync, syncLoop_requests]
  · intro operation htype
    cases ht : operation.type with
    | create => exact absurd ht htype
    | update => simp [replayRequest, ht]
    | delete => simp [replayRequest, ht]
  · unfold syncPendingOperations
    by_cases hempty : s.pendingSync = []
    · simp [havailable, hempty]
    · have hlen : (s.pendingSync.length == 0) = false := by simpa using hempty
      simp only [havailable, hlen, savePendingSync, Bool.not_true, Bool.or_self,
        Bool.false_eq_true, if_false]
      exact syncLoop_sublist env _ _

/-- Witness of C26: a create, an update and a delete enqueued for the local id
`local-0`; the backend answers the create with the id `srv-1`, and the update and
the delete are still sent to `local-0`. -/
theorem syncPendingOperations_replays_enqueued_ids_witness :
    (syncPendingOperations acceptingEnv chainedStore).requests.map
        (fun r => (r.method, r.endpoint))
      = [(.POST, .locations), (.PUT, .location (.str "local-0")),
         (.DELETE, .location (.str "local-0"))] := by
  rw [(syncPendingOperations_replays_enqueued_ids acceptingEnv chainedStore rfl).1]
  rfl

/-- C27. After every operation that changes the pending queue (a mutating call
or `getLocations` after which the queue differs, `syncPendingOperations` past its
guard, `clearLocalData`), the value decoded from the durable key is the JSON
image of the in-memory queue, and it is the in-memory queue itself when the
queued operations are JSON values. After `clearLocalData` the key is absent and
the in-memory queue is empty. -/
theorem pendingSync_key_mirrors_queue (env : Env) (s : StorageManager) (operation : Operation)
    (hchanges : operation.changesQueue env s) :
    loadPendingSync (operation.run env s)
        = (operation.run env s).pendingSync.map PendingOp.json ∧
      ((∀ o ∈ (operation.run env s).pendingSync, o.json = o) →
        loadPendingSync (operation.run env s) = (operation.run env s).pendingSync) ∧
      (clearLocalData s).localStorage.pendingSync = none ∧ (clearLocalData s).pendingSync = [] := by
  have hmirror : loadPendingSync (operation.run env s)
      = (operation.run env s).pendingSync.map PendingOp.json := by
    rcases queue_untouched_or_saved env s operation with ⟨hqueue, -⟩ | hsaved
    · cases operation with
      | getLocations => exact absurd hqueue hchanges
      | mutate call => exact absurd hqueue hchanges
      | syncPendingOperations =>
        obtain ⟨havailable, hnonempty⟩ := hchanges
        have hlen : (s.pendingSync.length == 0) = false := by simpa using hnonempty
        simp [Operation.run, syncPendingOperations, havailable, hlen, savePendingSync,
          loadPendingSync]
      | clearLocalData => rfl
    · exact hsaved
  refine ⟨hmirror, fun hjson => ?_, rfl, rfl⟩
  rw [hmirror]
  exact map_json_of_queued _ hjson

/-- Witness of C27: a create while the backend is believed out of reach enqueues
one operation, and the durable key decodes to the queue. -/
theorem pendingSync_key_mirrors_queue_witness :
    loadPendingSync (createLocation offlineEnv (emptyStore false) { name := some (.str "Monas") }).1
        = (createLocation offlineEnv (emptyStore false)
            { name := some (.str "Monas") }).1.pendingSync ∧
      (createLocation offlineEnv (emptyStore false)
        { name := some (.str "Monas") }).1.pendingSync.length = 1 :=
  ⟨(pendingSync_key_mirrors_queue offlineEnv (emptyStore false)
      (.mutate (.createLocation { name := some (.str "Monas") }))
      (by
        intro h
        have := congrArg List.length h
        exact absurd this (by decide))).1.trans rfl,
    rfl⟩

/-- C28. With the stored records decoded JSON, for every queue and every backend
`syncPendingOperations` leaves a record list of the same length, and the record
at each position is the one that was there before or the stored data of a
successfully replayed create or update of the queue whose id, after the replay,
is the id of that record (`replayedOnto`). When the flag is false or the queue is
empty the whole state is unchanged, the request log included. -/
theorem syncPendingOperations_keeps_record_list (env : Env) (s : StorageManager) (hjson : storedAsJson s) :
    (getLocalLocations (syncPendingOperations env s)).length = (getLocalLocations s).length ∧
      (∀ k r', (getLocalLocations (syncPendingOperations env s)).get? k = some r' →
        ∃ r, (getLocalLocations s).get? k = some r ∧ replayedOnto env s.pendingSync r r') ∧
      (s.isBackendAvailable = false ∨ s.pendingSync = [] → syncPendingOperations env s = s) := by
  have hinitial : replayInvariant env s.pendingSync (getLocalLocations s) (getLocalLocations s) :=
    ⟨rfl, fun k r' hk => ⟨hjson r' (List.get?_mem hk), r', hk, rfl, Or.inl rfl⟩⟩
  have hfinal : replayInvariant env s.pendingSync (getLocalLocations s)
      (getLocalLocations (syncPendingOperations env s)) := by
    unfold syncPendingOperations
    split
    · exact hinitial
    · exact replayInvariant_syncLoop env s.pendingSync (getLocalLocations s) s.pendingSync s
        (fun _ h => h) hinitial
  refine ⟨hfinal.1, fun k r' hk => ?_, fun hguard => ?_⟩
  · obtain ⟨-, r, hr, -, honto⟩ := hfinal.2 k r' hk
    exact ⟨r, hr, honto⟩
  · unfold syncPendingOperations
    rcases hguard with h | h
    · simp [h]
    · simp [h]

/-- Witness of C28: a replay of one queued update over a store holding one
record. -/
theorem syncPendingOperations_keeps_record_list_witness :
    (getLocalLocations (syncPendingOperations acceptingEnv storeWithQueuedUpdate)).length = 1 :=
  (syncPendingOperations_keeps_record_list acceptingEnv storeWithQueuedUpdate
    (by
      intro r hr
      simp only [getLocalLocations, storeWithQueuedUpdate, savePendingSync, onlineStoreWithMonas,
        storeWithMonas, Option.getD_some, List.mem_singleton] at hr
      subst hr
      rfl)).1

/-- C29. In create mode, with `selectedCoords` in the shape that `handleMapClick`
stores for any clicked `lng` and `lat`, `getFormData` returns form data whose
coordinates are the point `[undefined, undefined]`; `createLocation` given that
form data returns, and the record it stores last has the fallback point as its
coordinates, for every backend and either value of the flag. -/
theorem getFormData_stores_fallback (env : Env) (s : StorageManager) (form : FormValues)
    (editing : Option LocationData) (lng lat : JsVal) :
    ∃ data,
      LocationManager.getFormData
          { formMode := "create", editingLocation := editing,
            selectedCoords := handleMapClick lng lat } form = .returned data ∧
        data.coordinates = some (point .undefined .undefined) ∧
        (∃ result, (createLocation env s data).2 = .returned result) ∧
        lastCoordinates (createLocation env s data).1 = some (some fallbackPoint) := by
  refine ⟨_, rfl, rfl, ?_⟩
  exact createLocation_lastCoordinates env s _ fallbackPoint (fun location => rfl) rfl

/-- C30 as stated fails: a record with a name, a category and valid coordinates
but no address is exported and imported; the import reports one record and no
error, and the imported record has the address `''`, while the original has
none. -/
theorem importLocations_fills_absent_address :
    recordWithoutAddress.address = none ∧
      (prop recordWithoutAddress.name).truthy = true ∧
      (prop recordWithoutAddress.category).truthy = true ∧
      (importLocations offlineEnv (emptyStore false) (exportedFile [recordWithoutAddress])).2
        = { importedCount := 1, errorCount := 0 } ∧
      (getLocalLocations (importLocations offlineEnv (emptyStore false)
          (exportedFile [recordWithoutAddress])).1).map (·.address) = [some (.str "")] :=
  ⟨rfl, rfl, rfl, rfl, rfl⟩

/-- C30, amended. Let the backend be believed out of reach, the stored records be
decoded JSON, and every record of the exported list be decoded JSON with a truthy
name and category and a pair of numbers in range as coordinates. The export has
one feature per record, in order; the import of the exported file reports as many
imported records as there are features and no error, and appends to the record
list one record per feature, in order, with the name, category and coordinates of
the original, and with description and address equal to the original where that
is truthy and `''` otherwise. -/
theorem export_import_roundtrip (env : Env) (s : StorageManager) (L : List LocationData)
    (hdown : s.isBackendAvailable = false) (hstored : storedAsJson s)
    (hvalid : ∀ r ∈ L, r.json = r ∧ (prop r.name).truthy = true ∧
      (prop r.category).truthy = true ∧
      ∃ lng lat : ℚ, r.coordinates = some (point (.num (.fin lng)) (.num (.fin lat))) ∧
        (-180 ≤ lng ∧ lng ≤ 180) ∧ (-90 ≤ lat ∧ lat ≤ 90)) :
    (exportFeatures L).length = L.length ∧
      (∀ k r, L.get? k = some r → (exportFeatures L).get? k = some (exportFeature r)) ∧
      (importLocations env s (exportedFile L)).2
        = { importedCount := (exportedFile L).length, errorCount := 0 } ∧
      ∃ created,
        getLocalLocations (importLocations env s (exportedFile L)).1
          = getLocalLocations s ++ created ∧
        created.map LocationData.formFields = L.map fun r =>
          (r.name, r.category, some (orText (prop r.description) ""),
            some (orText (prop r.address) ""), r.coordinates) := by
  obtain ⟨hflag, hreport, created, hcreated, hfields⟩ :=
    importLoop_exported env L s { importedCount := 0, errorCount := 0 } hdown hstored hvalid
  refine ⟨by simp [exportFeatures], fun k r hk => get?_map_of_get? _ _ _ _ hk, ?_, created, ?_,
    hfields⟩
  · have hlength : (exportedFile L).length = L.length := by
      simp [exportedFile, exportFeatures]
    simp only [importLocations, hreport, hlength, Nat.zero_add]
  · simp only [importLocations, getLocations_offline env _ hflag]
    exact hcreated

/-- Witness of C30, amended: the round trip of one record into an empty store. -/
theorem export_import_roundtrip_witness :
    (importLocations offlineEnv (emptyStore false)
        (exportedFile [{ recordWithoutAddress with address := some (.str "Jakarta") }])).2
      = { importedCount := 1, errorCount := 0 } :=
  (export_import_roundtrip offlineEnv (emptyStore false)
    [{ recordWithoutAddress with address := some (.str "Jakarta") }] rfl
    (by
      intro r hr
      simp [getLocalLocations, emptyStore] at hr)
    (by
      intro r hr
      simp only [List.mem_singleton] at hr
      subst hr
      exact ⟨rfl, rfl, rfl, 10, 20, rfl, by norm_num, by norm_num⟩)).2.2.1

end Gis
